import Mathlib

/-!
# Verification of the quilt-pattern generation core

Shallow embedding of the tile-generation and symmetry engine of the
`quiltdesigner` repository: the Mulberry32 seeded random source
(`src/random.ts`), the weighted shape pool builder, block transforms,
symmetry source resolver, tile generator and grid tiler (`src/layout.ts`),
and the block simplifier (`src/simplify.ts`).

JavaScript numbers are modelled as `Nat` (all quantities in the generation
pipeline are non-negative); 32-bit wrap-around in the PRNG is explicit
(`% 4294967296`). Color identifiers are `String`s; the case-insensitive
comparison `toUpperCase()` is modelled by `upperColor`. Array indexing
`arr[i]` is modelled by `List.getD` with a default standing in for JS
`undefined`; every theorem below only exercises in-bounds accesses.
-/

/-- 2^32, the wrap-around modulus of the Mulberry32 PRNG. -/
def U32 : Nat := 4294967296

/-- One step of the Mulberry32 PRNG (`SeededRandom.next` in `src/random.ts`).
Input: the 32-bit state (as its unsigned representative). Output: the
numerator `v` of the returned float `v / 2^32`, and the new state.
`Math.imul` is multiplication mod 2^32; `x >>> k` is division by `2^k`;
`^` and `|` are bitwise xor and or on the 32-bit patterns. -/
def m32next (s : Nat) : Nat × Nat :=
  let s1 := (s + 0x6D2B79F5) % U32
  let t0 := (Nat.xor s1 (s1 >>> 15) * (s1 ||| 1)) % U32
  let t1 := Nat.xor ((t0 + Nat.xor t0 (t0 >>> 7) * (t0 ||| 61) % U32) % U32) t0
  (Nat.xor t1 (t1 >>> 14), s1)

/-- `new SeededRandom(seed)` does `this.state = seed | 0`: the 32-bit
pattern of the integer seed, i.e. `seed mod 2^32` as an unsigned value. -/
def m32init (seed : Int) : Nat := (seed % (U32 : Int)).toNat

/-- `SeededRandom.pick(arr)`: `arr[Math.floor(this.next() * arr.length)]`.
The float product is exact for the array lengths used by the generator, so
the index is `v * arr.length / 2^32` in exact arithmetic. `dflt` stands in
for JS `undefined` on an empty array. -/
def m32pick {α : Type} (s : Nat) (arr : List α) (dflt : α) : α × Nat :=
  (arr.getD ((m32next s).1 * arr.length / U32) dflt, (m32next s).2)

/-- `ShapeType` (`src/types.ts`). The current `ShapeType` const has four
members: `Square`, `HST`, `QST` and the derived-only `HSTSplit`
(`hst-split`). The copy of `types.ts` sitting under `src/` is a stale
snapshot with only three members — its `AppState` also lacks the
`colorCountMode` field that `src/layout.ts` reads — while the live code
uses `ShapeType.HSTSplit` throughout: `src/state.ts` (default enable flag
`false` and ratio `0` for it), `src/shapes.ts` and `src/renderer.ts`
(rendering), `src/simplify.ts` (the simplifier emits it), `src/ui.ts`
("only user-selectable shapes" excludes it from the controls). -/
inductive ShapeType where
  | square
  | hst
  | qst
  | hstSplit
deriving DecidableEq, Repr

/-- `Object.values(ShapeType)` as iterated by `buildWeightedShapePool`:
all four members of the current `ShapeType` const, in declaration order
(`HSTSplit` last, as in the `state.ts` initialisers; the UI never enables
it, but the enable/ratio records themselves carry an entry for it, and
cartridge import deserialises those records verbatim from external
JSON). -/
def shapeTypeValues : List ShapeType := [.square, .hst, .qst, .hstSplit]

/-- `SymmetryMode` (`src/types.ts`). -/
inductive SymmetryMode where
  | none
  | horizontal
  | vertical
  | fourWay
  | diagonalTLBR
  | diagonalTRBL
  | rotational
deriving DecidableEq, Repr

/-- `QuiltBlock` (`src/types.ts`): a shape, its ordered color slots and a
rotation in {0, 90, 180, 270}. -/
structure QuiltBlock where
  shape : ShapeType
  colors : List String
  rotation : Nat
deriving DecidableEq, Repr

instance : Inhabited QuiltBlock := ⟨⟨.square, [], 0⟩⟩

/-- `Palette` (`src/types.ts`). -/
structure Palette where
  name : String
  colors : List String
deriving DecidableEq, Repr

/-- `AppState` (`src/types.ts`): the configuration consumed by
`generateGrid`. The shape enable/ratio records are modelled as total
functions on `ShapeType`. -/
structure AppState where
  gridWidth : Nat
  gridHeight : Nat
  seed : Int
  symmetry : Nat
  symmetryMode : SymmetryMode
  enabledShapes : ShapeType → Bool
  shapeRatios : ShapeType → Nat
  paletteIndex : Nat
  customPalettes : List Palette
  paletteColorCount : Nat
  colorCountMode : String
  repeatWidth : Nat
  repeatHeight : Nat

/-- `BASE_PALETTES` (`src/palette.ts`). -/
def BASE_PALETTES : List Palette :=
  [ ⟨"Earthy", ["#8B4513", "#D2691E", "#DEB887", "#F5DEB3", "#556B2F", "#2F4F4F"]⟩,
    ⟨"Bold", ["#DC143C", "#FF8C00", "#FFD700", "#228B22", "#1E90FF", "#8A2BE2"]⟩,
    ⟨"Pastel", ["#FFB3BA", "#FFDFBA", "#FFFFBA", "#BAFFC9", "#BAE1FF", "#E8BAFF"]⟩,
    ⟨"Forest", ["#2D5016", "#4A7C23", "#8FBC3A", "#C8D96F", "#5C4033", "#8B6914"]⟩,
    ⟨"Ocean", ["#003545", "#006D77", "#83C5BE", "#EDF6F9", "#FFDDD2", "#E29578"]⟩,
    ⟨"Sunset", ["#641220", "#85182A", "#E01E37", "#F26A4F", "#F7A072", "#FFDAB9"]⟩,
    ⟨"Winter", ["#1B1F3B", "#3E517A", "#82A0BC", "#B8D4E3", "#DCEEF8", "#F0F0F0"]⟩,
    ⟨"Jewel", ["#6A0572", "#AB0D6F", "#D4376E", "#E85D75", "#2E86AB", "#1B4332"]⟩,
    ⟨"Muted Clay", ["#7A5C4B", "#B08B6F", "#C9B29C", "#D9CFC1", "#6F7B6A", "#4F5A4D"]⟩,
    ⟨"Dusty Sage", ["#5B6D64", "#7C8C7A", "#9AA892", "#C3CDBE", "#CFC2B1", "#A28D7A"]⟩,
    ⟨"Weathered Denim", ["#2F3E4E", "#4A5A68", "#6B7B86", "#8C9AA4", "#B4B0A1", "#D0C8B8"]⟩,
    ⟨"Soft Linen", ["#6E6259", "#8C8075", "#A99D92", "#C7BCB1", "#DED6CC", "#F1ECE4"]⟩ ]

/-- `getAllPalettes` (`src/palette.ts`): base palettes followed by custom
ones. -/
def getAllPalettes (custom : List Palette) : List Palette :=
  BASE_PALETTES ++ custom

/-- `color.toUpperCase()`: uppercase every character (kernel-computable
model of JS `toUpperCase` for the ASCII color identifiers this program
uses). -/
def upperColor (s : String) : String := ⟨s.data.map Char.toUpper⟩

/-- The accumulation loop of `buildWeightedShapePool` (`src/layout.ts`
lines 6-14): for each enum member of `ShapeType`, if enabled, push the
shape `weight` times. -/
def rawShapePool (state : AppState) : List ShapeType :=
  shapeTypeValues.foldl
    (fun acc shape =>
      if state.enabledShapes shape then
        acc ++ List.replicate (state.shapeRatios shape) shape
      else acc) []

/-- `buildWeightedShapePool` (`src/layout.ts` lines 5-19): the weighted
pool, falling back to `[Square]` when it would be empty. -/
def buildWeightedShapePool (state : AppState) : List ShapeType :=
  if rawShapePool state = [] then [.square] else rawShapePool state

/-- `randomBlock` (`src/layout.ts` lines 21-48): pick a shape from the
pool, a rotation from {0,90,180,270}, then one color per slot of the
shape. The `default` branch of the `switch` (derived shapes) picks a
single color. -/
def randomBlock (s : Nat) (pool : List ShapeType) (paletteColors : List String) :
    QuiltBlock × Nat :=
  let (shape, s1) := m32pick s pool .square
  let (rotation, s2) := m32pick s1 [0, 90, 180, 270] 0
  match shape with
  | .square =>
      let (c0, s3) := m32pick s2 paletteColors ""
      (⟨shape, [c0], rotation⟩, s3)
  | .hst =>
      let (c0, s3) := m32pick s2 paletteColors ""
      let (c1, s4) := m32pick s3 paletteColors ""
      (⟨shape, [c0, c1], rotation⟩, s4)
  | .qst =>
      let (c0, s3) := m32pick s2 paletteColors ""
      let (c1, s4) := m32pick s3 paletteColors ""
      let (c2, s5) := m32pick s4 paletteColors ""
      let (c3, s6) := m32pick s5 paletteColors ""
      (⟨shape, [c0, c1, c2, c3], rotation⟩, s6)
  | .hstSplit =>
      let (c0, s3) := m32pick s2 paletteColors ""
      (⟨shape, [c0], rotation⟩, s3)

/-- `mirrorH` (`src/layout.ts` lines 53-65): mirror across the vertical
axis. HST: swap colors, rotation `(450 - r) % 360`. QST
`[top,right,bottom,left]`: swap right/left, rotation `(360 - r) % 360`. -/
def mirrorH (block : QuiltBlock) : QuiltBlock :=
  match block.shape with
  | .hst =>
      { block with
        colors := [block.colors.getD 1 "", block.colors.getD 0 ""],
        rotation := (450 - block.rotation) % 360 }
  | .qst =>
      { block with
        colors := [block.colors.getD 0 "", block.colors.getD 3 "",
                   block.colors.getD 2 "", block.colors.getD 1 ""],
        rotation := (360 - block.rotation) % 360 }
  | _ => block

/-- `mirrorV` (`src/layout.ts` lines 68-80): mirror across the horizontal
axis. HST: rotation `(90 - r + 360) % 360` (written `(450 - r) % 360`,
identical for `r < 360`). QST: swap top/bottom, rotation
`(180 - r + 360) % 360` = `(540 - r) % 360`. -/
def mirrorV (block : QuiltBlock) : QuiltBlock :=
  match block.shape with
  | .hst =>
      { block with rotation := (450 - block.rotation) % 360 }
  | .qst =>
      { block with
        colors := [block.colors.getD 2 "", block.colors.getD 1 "",
                   block.colors.getD 0 "", block.colors.getD 3 ""],
        rotation := (540 - block.rotation) % 360 }
  | _ => block

/-- `rotate180` (`src/layout.ts` lines 83-92). -/
def rotate180 (block : QuiltBlock) : QuiltBlock :=
  match block.shape with
  | .hst =>
      { block with rotation := (block.rotation + 180) % 360 }
  | .qst =>
      { block with
        colors := [block.colors.getD 2 "", block.colors.getD 3 "",
                   block.colors.getD 0 "", block.colors.getD 1 ""],
        rotation := (block.rotation + 180) % 360 }
  | _ => block

/-- `rotateCW` (`src/layout.ts` lines 95-101): rotate clockwise in 90°
steps; `normalized = ((turns % 4) + 4) % 4`, identity when 0. -/
def rotateCW (block : QuiltBlock) (turns : Nat) : QuiltBlock :=
  if (turns % 4 + 4) % 4 = 0 then block
  else { block with rotation := (block.rotation + (turns % 4 + 4) % 4 * 90) % 360 }

/-- `mirrorDiagTLBR` (`src/layout.ts` lines 105-119): reflect across the
`\` diagonal. -/
def mirrorDiagTLBR (block : QuiltBlock) : QuiltBlock :=
  match block.shape with
  | .hst =>
      { block with
        colors := [block.colors.getD 1 "", block.colors.getD 0 ""],
        rotation := (450 - block.rotation) % 360 }
  | .qst =>
      { block with
        colors := [block.colors.getD 3 "", block.colors.getD 2 "",
                   block.colors.getD 1 "", block.colors.getD 0 ""],
        rotation := (450 - block.rotation) % 360 }
  | _ => block

/-- `mirrorDiagTRBL` (`src/layout.ts` lines 123-136): reflect across the
`/` diagonal; rotation `(270 - r + 360) % 360` = `(630 - r) % 360`. -/
def mirrorDiagTRBL (block : QuiltBlock) : QuiltBlock :=
  match block.shape with
  | .hst =>
      { block with
        colors := [block.colors.getD 1 "", block.colors.getD 0 ""],
        rotation := (630 - block.rotation) % 360 }
  | .qst =>
      { block with
        colors := [block.colors.getD 1 "", block.colors.getD 0 "",
                   block.colors.getD 3 "", block.colors.getD 2 ""],
        rotation := (630 - block.rotation) % 360 }
  | _ => block

/-- Result record of `getSymmetrySource`. -/
structure SymSource where
  srcRow : Nat
  srcCol : Nat
  transform : QuiltBlock → QuiltBlock

/-- The `turns` local of the square `FourWay` branch of
`getSymmetrySource`: which quadrant the cell lies in (0 = top-left,
1 = top-right, 2 = bottom-right, 3 = bottom-left), with
`half = ceil(size/2)`. -/
def fourWayTurns (half row col : Nat) : Nat :=
  if row < half ∧ half ≤ col then 1
  else if half ≤ row ∧ half ≤ col then 2
  else if half ≤ row ∧ col < half then 3
  else 0

/-- The `srcRow` local of the square `FourWay` branch before the
diagonal swap: the cell rotated back into the top-left quadrant. -/
def fourWayPreRow (size row col : Nat) : Nat :=
  if fourWayTurns ((size + 1) / 2) row col = 1 then size - 1 - col
  else if fourWayTurns ((size + 1) / 2) row col = 2 then size - 1 - row
  else if fourWayTurns ((size + 1) / 2) row col = 3 then col
  else row

/-- The `srcCol` local of the square `FourWay` branch before the
diagonal swap. -/
def fourWayPreCol (size row col : Nat) : Nat :=
  if fourWayTurns ((size + 1) / 2) row col = 1 then row
  else if fourWayTurns ((size + 1) / 2) row col = 2 then size - 1 - col
  else if fourWayTurns ((size + 1) / 2) row col = 3 then size - 1 - row
  else col

/-- The square-tile `FourWay` branch of `getSymmetrySource`
(`src/layout.ts` lines 183-222): rotate the cell back into the top-left
quadrant; if the rotated-back point lies below the quadrant's main
diagonal (`srcRow > srcCol`) swap the coordinates and record a diagonal
pre-reflection (`needsDiag`); the cell is canonical when `turns = 0` and
no swap happened. -/
def fourWaySquareSource (size row col : Nat) : Option SymSource :=
  if fourWayTurns ((size + 1) / 2) row col = 0 ∧
      ¬ fourWayPreCol size row col < fourWayPreRow size row col then
    Option.none
  else
    Option.some
      ⟨(if fourWayPreCol size row col < fourWayPreRow size row col then
          fourWayPreCol size row col else fourWayPreRow size row col),
       (if fourWayPreCol size row col < fourWayPreRow size row col then
          fourWayPreRow size row col else fourWayPreCol size row col),
       fun b =>
         if fourWayTurns ((size + 1) / 2) row col ≠ 0 then
           rotateCW
             (if fourWayPreCol size row col < fourWayPreRow size row col then
                mirrorDiagTLBR b else b)
             (fourWayTurns ((size + 1) / 2) row col)
         else if fourWayPreCol size row col < fourWayPreRow size row col then
           mirrorDiagTLBR b
         else b⟩

/-- `getSymmetrySource` (`src/layout.ts` lines 143-255). Coordinates are
natural numbers, as supplied by every caller; `Math.ceil(x/2)` on naturals
is `(x+1)/2`. In the `DiagonalTRBL` branch the source computes possibly
negative intermediate coordinates and bounds-checks them, which is
modelled with `Int` exactly as written. -/
def getSymmetrySource (row col tileW tileH : Nat) (mode : SymmetryMode) :
    Option SymSource :=
  match mode with
  | .none => Option.none
  | .horizontal =>
      if col < (tileW + 1) / 2 then Option.none
      else Option.some ⟨row, tileW - 1 - col, mirrorH⟩
  | .vertical =>
      if row < (tileH + 1) / 2 then Option.none
      else Option.some ⟨tileH - 1 - row, col, mirrorV⟩
  | .fourWay =>
      if tileW ≠ tileH then
        if row < (tileH + 1) / 2 ∧ col < (tileW + 1) / 2 then Option.none
        else
          let srcRow := if row < (tileH + 1) / 2 then row else tileH - 1 - row
          let srcCol := if col < (tileW + 1) / 2 then col else tileW - 1 - col
          if (tileW + 1) / 2 ≤ col ∧ row < (tileH + 1) / 2 then
            Option.some ⟨srcRow, srcCol, mirrorH⟩
          else if col < (tileW + 1) / 2 ∧ (tileH + 1) / 2 ≤ row then
            Option.some ⟨srcRow, srcCol, mirrorV⟩
          else
            Option.some ⟨srcRow, srcCol, fun b => mirrorH (mirrorV b)⟩
      else
        fourWaySquareSource tileW row col
  | .diagonalTLBR =>
      if row ≤ col then Option.none
      else if min tileW tileH ≤ row then Option.none
      else Option.some ⟨col, row, mirrorDiagTLBR⟩
  | .diagonalTRBL =>
      if row + col < min tileW tileH then Option.none
      else
        let sr : Int := (min tileW tileH : Int) - 1 - (col : Int)
        let sc : Int := (min tileW tileH : Int) - 1 - (row : Int)
        if sr < 0 ∨ sc < 0 ∨ (tileH : Int) ≤ sr ∨ (tileW : Int) ≤ sc then
          Option.none
        else Option.some ⟨sr.toNat, sc.toNat, mirrorDiagTRBL⟩
  | .rotational =>
      if row < (tileH + 1) / 2 then Option.none
      else if tileH % 2 = 1 ∧ row = (tileH + 1) / 2 - 1 then Option.none
      else Option.some ⟨tileH - 1 - row, tileW - 1 - col, rotate180⟩

/-- Tile cell access `tile[r][c]`; out-of-bounds stands for JS `undefined`
(never exercised by the theorems below). -/
def getCell (tile : List (List QuiltBlock)) (r c : Nat) : QuiltBlock :=
  (tile.getD r []).getD c default

/-- Tile cell update `tile[r][c] = b` (no-op out of bounds, matching the
fact that callers only write in bounds). -/
def setCell (tile : List (List QuiltBlock)) (r c : Nat) (b : QuiltBlock) :
    List (List QuiltBlock) :=
  tile.set r ((tile.getD r []).set c b)

/-- One random row of the first fill pass, `tileW` cells left to right. -/
def fillRow (pool : List ShapeType) (paletteColors : List String) :
    Nat → Nat → List QuiltBlock × Nat
  | 0, s => ([], s)
  | n + 1, s =>
      ((randomBlock s pool paletteColors).1 ::
        (fillRow pool paletteColors n (randomBlock s pool paletteColors).2).1,
       (fillRow pool paletteColors n (randomBlock s pool paletteColors).2).2)

/-- First pass of `generateTile`: fill every cell with `randomBlock`,
row-major (the evaluation order of the nested `Array.from`). -/
def fillTile (pool : List ShapeType) (paletteColors : List String)
    (tileW : Nat) : Nat → Nat → List (List QuiltBlock) × Nat
  | 0, s => ([], s)
  | n + 1, s =>
      ((fillRow pool paletteColors tileW s).1 ::
        (fillTile pool paletteColors tileW n (fillRow pool paletteColors tileW s).2).1,
       (fillTile pool paletteColors tileW n (fillRow pool paletteColors tileW s).2).2)

/-- The canonical (cell, colorSlot) positions collected by
`ensureAllColorsUsed`, in its row-major iteration order: every slot of
every cell for which `getSymmetrySource` returns null. -/
def canonicalSlots (tile : List (List QuiltBlock)) (tileW tileH : Nat)
    (mode : SymmetryMode) : List (Nat × Nat × Nat) :=
  (List.range tileH).flatMap fun row =>
    (List.range tileW).flatMap fun col =>
      match getSymmetrySource row col tileW tileH mode with
      | Option.some _ => []
      | Option.none =>
          (List.range (getCell tile row col).colors.length).map
            fun colorIdx => (row, col, colorIdx)

/-- The uppercased colors of canonical cells (`usedColors` set of
`ensureAllColorsUsed`; only membership is ever queried). -/
def canonicalUsedColors (tile : List (List QuiltBlock)) (tileW tileH : Nat)
    (mode : SymmetryMode) : List String :=
  (canonicalSlots tile tileW tileH mode).map fun pos =>
    upperColor ((getCell tile pos.1 pos.2.1).colors.getD pos.2.2 "")

/-- One Fisher-Yates swap `[arr[i], arr[j]] = [arr[j], arr[i]]`. -/
def fySwap {α : Type} (arr : List α) (i j : Nat) (dflt : α) : List α :=
  (arr.set i (arr.getD j dflt)).set j (arr.getD i dflt)

/-- The Fisher-Yates loop of `ensureAllColorsUsed`: for `i` from
`length-1` down to `1`, draw `j = floor(next() * (i+1))` and swap. -/
def fyLoop {α : Type} (dflt : α) : Nat → List α → Nat → List α × Nat
  | 0, arr, s => (arr, s)
  | i + 1, arr, s =>
      let (v, s1) := m32next s
      fyLoop dflt i (fySwap arr (i + 1) (v * (i + 2) / U32) dflt) s1

/-- Overwrite one color slot of one cell
(`tile[pos.row][pos.col].colors[pos.colorIdx] = color`). -/
def setColorAt (tile : List (List QuiltBlock)) (pos : Nat × Nat × Nat)
    (color : String) : List (List QuiltBlock) :=
  setCell tile pos.1 pos.2.1
    { getCell tile pos.1 pos.2.1 with
      colors := (getCell tile pos.1 pos.2.1).colors.set pos.2.2 color }

/-- The `unusedColors` list of `ensureAllColorsUsed`: palette colors
absent (case-insensitively) from all canonical slots. -/
def unusedColors (tile : List (List QuiltBlock)) (paletteColors : List String)
    (mode : SymmetryMode) : List String :=
  paletteColors.filter fun c =>
    ¬ (canonicalUsedColors tile (tile.headD []).length tile.length
        mode).contains (upperColor c)

/-- The shuffled canonical positions of `ensureAllColorsUsed` together
with the PRNG state after the Fisher-Yates loop. -/
def shuffledPositions (tile : List (List QuiltBlock)) (s : Nat)
    (mode : SymmetryMode) : List (Nat × Nat × Nat) × Nat :=
  fyLoop (0, 0, 0)
    ((canonicalSlots tile (tile.headD []).length tile.length mode).length - 1)
    (canonicalSlots tile (tile.headD []).length tile.length mode) s

/-- `ensureAllColorsUsed` (`src/layout.ts` lines 259-300): find palette
colors unused among canonical slots; if any, Fisher-Yates-shuffle the
canonical positions and write the unused colors into the first shuffled
positions. -/
def ensureAllColorsUsed (tile : List (List QuiltBlock))
    (paletteColors : List String) (s : Nat) (mode : SymmetryMode) :
    List (List QuiltBlock) × Nat :=
  if unusedColors tile paletteColors mode = [] then (tile, s)
  else
    (((shuffledPositions tile s mode).1.zip
        (unusedColors tile paletteColors mode)).foldl
      (fun t pc => setColorAt t pc.1 pc.2) tile,
     (shuffledPositions tile s mode).2)

/-- The tile positions in the row-major order of the symmetry pass. -/
def rowMajor (tileH tileW : Nat) : List (Nat × Nat) :=
  (List.range tileH).flatMap fun row =>
    (List.range tileW).map fun col => (row, col)

/-- One cell of the symmetry pass: skip canonical cells; for a derived
cell draw a float and apply the transform when `float*100 < symmetry`
(i.e. `v * 100 < symmetry * 2^32` exactly). -/
def symStep (tileW tileH symmetry : Nat) (mode : SymmetryMode)
    (acc : List (List QuiltBlock) × Nat) (pos : Nat × Nat) :
    List (List QuiltBlock) × Nat :=
  match getSymmetrySource pos.1 pos.2 tileW tileH mode with
  | Option.none => acc
  | Option.some src =>
      let (v, s1) := m32next acc.2
      if v * 100 < symmetry * U32 then
        (setCell acc.1 pos.1 pos.2
          (src.transform (getCell acc.1 src.srcRow src.srcCol)), s1)
      else (acc.1, s1)

/-- Second pass of `generateTile`: probabilistic symmetry application in
row-major order. -/
def symPass (tileW tileH symmetry : Nat) (mode : SymmetryMode)
    (ps : List (Nat × Nat)) (tile : List (List QuiltBlock)) (s : Nat) :
    List (List QuiltBlock) × Nat :=
  ps.foldl (symStep tileW tileH symmetry mode) (tile, s)

/-- The tile after the random fill and the optional exact-color pass,
just before symmetry is applied. -/
def preSymTile (tileW tileH : Nat) (mode : SymmetryMode) (s : Nat)
    (pool : List ShapeType) (paletteColors : List String)
    (exactColors : Bool) : List (List QuiltBlock) × Nat :=
  if exactColors then
    ensureAllColorsUsed (fillTile pool paletteColors tileW tileH s).1
      paletteColors (fillTile pool paletteColors tileW tileH s).2 mode
  else fillTile pool paletteColors tileW tileH s

/-- `generateTile` (`src/layout.ts` lines 302-338). -/
def generateTile (tileW tileH symmetry : Nat) (mode : SymmetryMode)
    (s : Nat) (pool : List ShapeType) (paletteColors : List String)
    (exactColors : Bool) : List (List QuiltBlock) × Nat :=
  if mode = SymmetryMode.none then
    preSymTile tileW tileH mode s pool paletteColors exactColors
  else
    symPass tileW tileH symmetry mode (rowMajor tileH tileW)
      (preSymTile tileW tileH mode s pool paletteColors exactColors).1
      (preSymTile tileW tileH mode s pool paletteColors exactColors).2

/-- The palette selected by `generateGrid`:
`palettes[state.paletteIndex % palettes.length]`. -/
def selectedPalette (state : AppState) : Palette :=
  (getAllPalettes state.customPalettes).getD
    (state.paletteIndex % (getAllPalettes state.customPalettes).length)
    ⟨"", []⟩

/-- The active palette slice of `generateGrid`:
`palette.colors.slice(0, max(1, min(paletteColorCount, len)))`. -/
def activePaletteColors (state : AppState) : List String :=
  (selectedPalette state).colors.take
    (max 1 (min state.paletteColorCount (selectedPalette state).colors.length))

/-- Tile width of `generateGrid`:
`repeatWidth > 0 ? min(repeatWidth, gridWidth) : gridWidth`. -/
def tileWOf (state : AppState) : Nat :=
  if state.repeatWidth > 0 then min state.repeatWidth state.gridWidth
  else state.gridWidth

/-- Tile height of `generateGrid`. -/
def tileHOf (state : AppState) : Nat :=
  if state.repeatHeight > 0 then min state.repeatHeight state.gridHeight
  else state.gridHeight

/-- The repeat tile computed inside `generateGrid` (`src/layout.ts` lines
340-353). -/
def tileOf (state : AppState) : List (List QuiltBlock) :=
  (generateTile (tileWOf state) (tileHOf state) state.symmetry
    state.symmetryMode (m32init state.seed) (buildWeightedShapePool state)
    (activePaletteColors state) (state.colorCountMode == "exact")).1

/-- `generateGrid` (`src/layout.ts` lines 340-360): generate the repeat
tile, then replicate it by modulo indexing. -/
def generateGrid (state : AppState) : List (List QuiltBlock) :=
  (List.range state.gridHeight).map fun row =>
    (List.range state.gridWidth).map fun col =>
      getCell (tileOf state) (row % tileHOf state) (col % tileWOf state)

/-- `colorEq` (`src/simplify.ts`): case-insensitive color comparison. -/
def colorEq (a b : String) : Bool := upperColor a == upperColor b

/-- The decision chain of the QST arm over the destructured slot colors
`[top, right, bottom, left]` (the `const [top, right, bottom, left] =
block.colors` destructuring of the source). -/
def qstMerge (top right bottom left : String) (block : QuiltBlock) : QuiltBlock :=
    if colorEq top right && colorEq right bottom && colorEq bottom left then
      ⟨.square, [top], 0⟩
    else if colorEq top right && colorEq bottom left then
      ⟨.hst, [bottom, top], 0⟩
    else if colorEq top left && colorEq right bottom then
      ⟨.hst, [left, right], 90⟩
    else if colorEq top right && colorEq right bottom && !colorEq bottom left then
      ⟨.hst, [left, top], 270⟩
    else if colorEq right bottom && colorEq bottom left && !colorEq left top then
      ⟨.hst, [top, right], 0⟩
    else if colorEq bottom left && colorEq left top && !colorEq top right then
      ⟨.hst, [right, bottom], 90⟩
    else if colorEq left top && colorEq top right && !colorEq right bottom then
      ⟨.hst, [bottom, top], 180⟩
    else if colorEq bottom left && !colorEq top right then
      ⟨.hstSplit, [bottom, top, right], 0⟩
    else if colorEq top left && !colorEq right bottom then
      ⟨.hstSplit, [top, right, bottom], 90⟩
    else if colorEq top right && !colorEq bottom left then
      ⟨.hstSplit, [top, bottom, left], 180⟩
    else if colorEq right bottom && !colorEq left top then
      ⟨.hstSplit, [right, left, top], 270⟩
    else block

/-- The QST arm of `simplifyBlock` (`src/simplify.ts`): merge
same-colored adjacent triangles of a quarter-square triangle into a
simpler shape. Slot order is `[top, right, bottom, left]`. -/
def simplifyQST (block : QuiltBlock) : QuiltBlock :=
  qstMerge (block.colors.getD 0 "") (block.colors.getD 1 "")
    (block.colors.getD 2 "") (block.colors.getD 3 "") block

/-- `simplifyBlock` (`src/simplify.ts` lines 576-699 of the concatenated
community module): merge same-colored adjacent triangles into a simpler
shape (HST with equal colors becomes a Square; a QST is handled by
`simplifyQST`). -/
def simplifyBlock (block : QuiltBlock) : QuiltBlock :=
  match block.shape with
  | .hst =>
      if colorEq (block.colors.getD 0 "") (block.colors.getD 1 "") then
        ⟨.square, [block.colors.getD 0 ""], 0⟩
      else block
  | .qst => simplifyQST block
  | _ => block

/-- `simplifyGrid` (`src/simplify.ts`). -/
def simplifyGrid (grid : List (List QuiltBlock)) : List (List QuiltBlock) :=
  grid.map fun row => row.map simplifyBlock

/-! ## Helper lemmas: the PRNG, cells and the shape pool -/

theorem shiftRight_le_self (a k : Nat) : a >>> k ≤ a := by
  rw [Nat.shiftRight_eq_div_pow]
  exact Nat.div_le_self a (2 ^ k)

/-- The float numerator returned by `next()` is a 32-bit value. -/
theorem m32next_fst_lt (s : Nat) : (m32next s).1 < U32 := by
  have hm : ∀ a : Nat, a % U32 < 2 ^ 32 := fun a => Nat.mod_lt _ (by decide)
  have hx : ∀ a b : Nat, a < 2 ^ 32 → b < 2 ^ 32 → Nat.xor a b < 2 ^ 32 :=
    fun a b => Nat.xor_lt_two_pow
  have hsr : ∀ a k : Nat, a < 2 ^ 32 → a >>> k < 2 ^ 32 :=
    fun a k ha => lt_of_le_of_lt (shiftRight_le_self a k) ha
  show Nat.xor _ _ < U32
  show Nat.xor _ _ < 2 ^ 32
  exact hx _ _ (hx _ _ (hm _) (hm _)) (hsr _ _ (hx _ _ (hm _) (hm _)))

/-- `pick` lands inside a non-empty array. -/
theorem m32pick_fst_mem {α : Type} (s : Nat) (arr : List α) (dflt : α)
    (h : arr ≠ []) : (m32pick s arr dflt).1 ∈ arr := by
  have hlen : 0 < arr.length := List.length_pos.mpr h
  have hv : (m32next s).1 < U32 := m32next_fst_lt s
  have hidx : (m32next s).1 * arr.length / U32 < arr.length := by
    rw [Nat.div_lt_iff_lt_mul (by decide : 0 < U32)]
    calc (m32next s).1 * arr.length < U32 * arr.length :=
          (Nat.mul_lt_mul_right hlen).mpr hv
      _ = arr.length * U32 := Nat.mul_comm _ _
  show arr.getD ((m32next s).1 * arr.length / U32) dflt ∈ arr
  rw [List.getD_eq_getElem arr dflt hidx]
  exact List.getElem_mem hidx

/-- The weighted accumulation loop, written out over the four enum
members. -/
theorem rawShapePool_eq (st : AppState) :
    rawShapePool st =
      (if st.enabledShapes .square then
        List.replicate (st.shapeRatios .square) ShapeType.square else []) ++
      (if st.enabledShapes .hst then
        List.replicate (st.shapeRatios .hst) ShapeType.hst else []) ++
      (if st.enabledShapes .qst then
        List.replicate (st.shapeRatios .qst) ShapeType.qst else []) ++
      (if st.enabledShapes .hstSplit then
        List.replicate (st.shapeRatios .hstSplit) ShapeType.hstSplit else []) := by
  unfold rawShapePool shapeTypeValues
  simp only [List.foldl_cons, List.foldl_nil]
  split_ifs <;> simp

/-- Every element of the raw pool is one of the four enum members. -/
theorem mem_rawShapePool (st : AppState) (sh : ShapeType)
    (h : sh ∈ rawShapePool st) : sh ∈ shapeTypeValues := by
  rw [rawShapePool_eq] at h
  unfold shapeTypeValues
  rcases List.mem_append.mp h with h1 | h1
  · rcases List.mem_append.mp h1 with h2 | h2
    · rcases List.mem_append.mp h2 with h3 | h3 <;>
      · split_ifs at h3 <;> simp_all [List.mem_replicate]
    · split_ifs at h2 <;> simp_all [List.mem_replicate]
  · split_ifs at h1 <;> simp_all [List.mem_replicate]

theorem mem_buildWeightedShapePool (st : AppState) (sh : ShapeType)
    (h : sh ∈ buildWeightedShapePool st) : sh ∈ shapeTypeValues := by
  unfold buildWeightedShapePool at h
  split_ifs at h
  · simp_all [shapeTypeValues]
  · exact mem_rawShapePool st sh h

theorem buildWeightedShapePool_ne_nil (st : AppState) :
    buildWeightedShapePool st ≠ [] := by
  unfold buildWeightedShapePool
  split_ifs with h
  · simp
  · exact h

/-- Counting a shape in the raw pool. -/
theorem count_rawShapePool (st : AppState) (sh : ShapeType)
    (hsh : sh ∈ shapeTypeValues) :
    (rawShapePool st).count sh =
      if st.enabledShapes sh then st.shapeRatios sh else 0 := by
  have h4 : sh = .square ∨ sh = .hst ∨ sh = .qst ∨ sh = .hstSplit := by
    simpa [shapeTypeValues] using hsh
  rw [rawShapePool_eq]
  rcases h4 with rfl | rfl | rfl | rfl <;>
    (split_ifs <;> simp_all +decide [List.count_append, List.count_replicate])

/-- `HSTSplit` stays out of the pool exactly when it is disabled or has
weight 0 (as in the default state; the UI offers no control for it, but
imported enable/ratio records can say otherwise). -/
theorem hstSplit_not_mem_pool (st : AppState)
    (hsp : st.enabledShapes .hstSplit = false ∨ st.shapeRatios .hstSplit = 0) :
    ShapeType.hstSplit ∉ buildWeightedShapePool st := by
  unfold buildWeightedShapePool
  split_ifs with he
  · simp
  · intro hmem
    have hcount := count_rawShapePool st .hstSplit (by simp [shapeTypeValues])
    have h0 : (rawShapePool st).count ShapeType.hstSplit = 0 := by
      rw [hcount]
      rcases hsp with h | h <;> simp [h]
    exact (List.count_eq_zero.mp h0) hmem

/-- A settled configuration used to instantiate hypotheses of the
universally quantified theorems below. -/
def sampleState : AppState :=
  { gridWidth := 4, gridHeight := 4, seed := 42, symmetry := 100,
    symmetryMode := .horizontal,
    enabledShapes := fun sh => decide (sh = .square) || decide (sh = .hst),
    shapeRatios := fun sh => if sh = .square then 2 else if sh = .hst then 1 else 5,
    paletteIndex := 0, customPalettes := [], paletteColorCount := 3,
    colorCountMode := "max", repeatWidth := 2, repeatHeight := 2 }

/-- A configuration whose enable/ratio records switch `HSTSplit` on with
weight 1 — reachable as data, since cartridge import (`src/community.ts`)
copies `enabledShapes` and `shapeRatios` verbatim from external JSON. -/
def c6FailState : AppState :=
  { gridWidth := 4, gridHeight := 4, seed := 7, symmetry := 0,
    symmetryMode := .none,
    enabledShapes := fun sh => decide (sh = .square) || decide (sh = .hstSplit),
    shapeRatios := fun _ => 1,
    paletteIndex := 0, customPalettes := [], paletteColorCount := 3,
    colorCountMode := "max", repeatWidth := 0, repeatHeight := 0 }

/-- Counterexample to C6 as stated: `buildWeightedShapePool` iterates all
`Object.values(ShapeType)` — `HSTSplit` included — so with the `hst-split`
flag on and a positive weight the pool does contain `HSTSplit`, refuting
the conjunct "never contains HSTSplit regardless of the enable flags and
weights". -/
theorem c6_pool_counterexample :
    c6FailState.enabledShapes .hstSplit = true ∧
    c6FailState.shapeRatios .hstSplit = 1 ∧
    ShapeType.hstSplit ∈ buildWeightedShapePool c6FailState := by
  refine ⟨by decide, by decide, by decide⟩

/-- C6 (corrected): `buildWeightedShapePool` yields each enabled enum
shape — `HSTSplit` included — exactly `weight` times (an enabled shape of
weight 0, or a disabled shape, is absent); when the accumulated pool is
empty the result is `[Square]`; the result is never empty; and `HSTSplit`
is absent provided it is disabled or has weight 0 (as the defaults and the
UI keep it) — not, as claimed, regardless of the flags and weights. -/
theorem c6_weighted_pool (st : AppState) :
    (rawShapePool st ≠ [] →
      ∀ sh ∈ shapeTypeValues,
        (buildWeightedShapePool st).count sh =
          if st.enabledShapes sh then st.shapeRatios sh else 0) ∧
    (rawShapePool st = [] → buildWeightedShapePool st = [ShapeType.square]) ∧
    buildWeightedShapePool st ≠ [] ∧
    ((st.enabledShapes .hstSplit = false ∨ st.shapeRatios .hstSplit = 0) →
      ShapeType.hstSplit ∉ buildWeightedShapePool st) := by
  refine ⟨?_, ?_, buildWeightedShapePool_ne_nil st, hstSplit_not_mem_pool st⟩
  · intro hne sh hsh
    unfold buildWeightedShapePool
    rw [if_neg hne]
    exact count_rawShapePool st sh hsh
  · intro he
    unfold buildWeightedShapePool
    rw [if_pos he]

/-- Witness for C6 at a concrete configuration. -/
theorem c6_weighted_pool_witness :
    rawShapePool sampleState ≠ [] ∧
    (buildWeightedShapePool sampleState).count ShapeType.hst =
      (if sampleState.enabledShapes .hst then sampleState.shapeRatios .hst else 0) ∧
    ShapeType.hstSplit ∉ buildWeightedShapePool sampleState :=
  ⟨by decide, (c6_weighted_pool sampleState).1 (by decide) .hst (by decide),
   (c6_weighted_pool sampleState).2.2.2 (Or.inl (by decide))⟩

/-- C7: `mirrorH` on an HST swaps the two colors and rotates by
`(450 - r) % 360`; on a QST `[top, right, bottom, left]` it swaps the
right and left slots and rotates by `(360 - r) % 360`; a Square is
returned unchanged. (The embedding is a pure function, so the input block
is left unchanged by construction, as the source builds a fresh object.) -/
theorem c7_mirrorH_spec (b : QuiltBlock)
    (hrot : b.rotation = 0 ∨ b.rotation = 90 ∨ b.rotation = 180 ∨ b.rotation = 270) :
    (∀ c0 c1, b.shape = .hst → b.colors = [c0, c1] →
      mirrorH b = ⟨.hst, [c1, c0], (450 - b.rotation) % 360⟩) ∧
    (∀ ct cr cb cl, b.shape = .qst → b.colors = [ct, cr, cb, cl] →
      mirrorH b = ⟨.qst, [ct, cl, cb, cr], (360 - b.rotation) % 360⟩) ∧
    (b.shape = .square → mirrorH b = b) := by
  obtain ⟨sh, cols, rot⟩ := b
  refine ⟨?_, ?_, ?_⟩
  · intro c0 c1 hsh hcols
    simp only at hsh hcols
    subst hsh; subst hcols
    simp [mirrorH]
  · intro ct cr cb cl hsh hcols
    simp only at hsh hcols
    subst hsh; subst hcols
    simp [mirrorH]
  · intro hsh
    simp only at hsh
    subst hsh
    simp [mirrorH]

/-- Witness for C7 at a concrete HST block. -/
theorem c7_mirrorH_witness :
    ((⟨ShapeType.hst, ["#111111", "#222222"], 90⟩ : QuiltBlock).rotation = 90) ∧
    mirrorH ⟨ShapeType.hst, ["#111111", "#222222"], 90⟩ =
      ⟨ShapeType.hst, ["#222222", "#111111"], 0⟩ :=
  ⟨rfl, (c7_mirrorH_spec _ (Or.inr (Or.inl rfl))).1 "#111111" "#222222" rfl rfl⟩

/-- C8: in Rotational mode an in-range cell is canonical exactly when
`row < ceil(tileH/2)` (`Math.ceil(tileH/2) = (tileH+1)/2` on naturals;
for odd `tileH` this includes the middle row), and otherwise the source
is the 180-degree rotated position `(tileH-1-row, tileW-1-col)` with the
`rotate180` transform. -/
theorem c8_rotational_source (tileW tileH row col : Nat) (hH : 1 ≤ tileH)
    (hr : row < tileH) (hc : col < tileW) :
    (getSymmetrySource row col tileW tileH .rotational = Option.none ↔
      row < (tileH + 1) / 2) ∧
    ((tileH + 1) / 2 ≤ row →
      getSymmetrySource row col tileW tileH .rotational =
        Option.some ⟨tileH - 1 - row, tileW - 1 - col, rotate180⟩) := by
  have hred : getSymmetrySource row col tileW tileH .rotational =
      if row < (tileH + 1) / 2 then Option.none
      else if tileH % 2 = 1 ∧ row = (tileH + 1) / 2 - 1 then Option.none
      else Option.some ⟨tileH - 1 - row, tileW - 1 - col, rotate180⟩ := rfl
  rw [hred]
  by_cases hrow : row < (tileH + 1) / 2
  · rw [if_pos hrow]
    exact ⟨⟨fun _ => hrow, fun _ => rfl⟩, fun h => by omega⟩
  · rw [if_neg hrow]
    have h2 : ¬(tileH % 2 = 1 ∧ row = (tileH + 1) / 2 - 1) := by omega
    rw [if_neg h2]
    exact ⟨by simp [hrow], fun _ => rfl⟩

/-- Witness for C8: 2-wide, 3-tall tile, bottom-left cell. -/
theorem c8_rotational_source_witness :
    (getSymmetrySource 2 0 2 3 .rotational = Option.none ↔ 2 < 2) ∧
    (2 ≤ 2 →
      getSymmetrySource 2 0 2 3 .rotational =
        Option.some ⟨0, 1, rotate180⟩) :=
  c8_rotational_source 2 3 2 0 (by decide) (by decide) (by decide)

/-! ## Deep structural equality of grids (C1, C4) -/

/-- Deep equality of two blocks: shape, every color slot, and rotation. -/
def blockEq (a b : QuiltBlock) : Bool :=
  (a.shape == b.shape) && (a.colors == b.colors) && (a.rotation == b.rotation)

/-- Deep equality of two rows of blocks. -/
def rowEq (r1 r2 : List QuiltBlock) : Bool :=
  (r1.length == r2.length) && ((r1.zip r2).all fun p => blockEq p.1 p.2)

/-- Deep equality of two grids: same dimensions and `blockEq` cellwise. -/
def gridEq (g1 g2 : List (List QuiltBlock)) : Bool :=
  (g1.length == g2.length) && ((g1.zip g2).all fun p => rowEq p.1 p.2)

theorem zip_self_all {α : Type} (f : α × α → Bool) (h : ∀ a, f (a, a) = true)
    (l : List α) : (l.zip l).all f = true := by
  induction l with
  | nil => rfl
  | cons a t ih => simp [List.zip_cons_cons, h, ih]

theorem blockEq_refl (a : QuiltBlock) : blockEq a a = true := by
  simp [blockEq]

theorem rowEq_refl (r : List QuiltBlock) : rowEq r r = true := by
  simp only [rowEq, Bool.and_eq_true, beq_self_eq_true, true_and]
  exact zip_self_all _ (fun a => blockEq_refl a) r

theorem gridEq_refl (g : List (List QuiltBlock)) : gridEq g g = true := by
  simp only [gridEq, Bool.and_eq_true, beq_self_eq_true, true_and]
  exact zip_self_all _ (fun a => rowEq_refl a) g

/-- C1: generation is deterministic — two calls of `generateGrid` on the
same configuration state produce deeply (structurally) equal grids: the
embedding of `generateGrid` is a pure function of the state (it reads
nothing but the state and a `SeededRandom` freshly seeded from
`state.seed`), so both calls denote one and the same grid. -/
theorem c1_determinism (state : AppState) :
    gridEq (generateGrid state) (generateGrid state) = true :=
  gridEq_refl (generateGrid state)

theorem getD_map_range {α : Type} (n : Nat) (f : Nat → α) (d : α) (i : Nat)
    (h : i < n) : ((List.range n).map f).getD i d = f i := by
  rw [List.getD_eq_getElem _ _ (by simpa using h)]
  simp

/-- C4: the output grid is the repeat tile replicated by modulo indexing:
for every in-range position, `grid[row][col] = tile[row % tileH][col %
tileW]`, where the tile dimensions are the repeat dimensions clamped to
the grid dimensions (a repeat dimension of 0 meaning the full grid
dimension); the grid is exactly periodic with period (tileH, tileW). -/
theorem c4_tiling (st : AppState) (row col : Nat)
    (hr : row < st.gridHeight) (hc : col < st.gridWidth) :
    getCell (generateGrid st) row col =
      getCell (tileOf st) (row % tileHOf st) (col % tileWOf st) := by
  show ((generateGrid st).getD row []).getD col default = _
  have h1 : generateGrid st = (List.range st.gridHeight).map fun r =>
      (List.range st.gridWidth).map fun c =>
        getCell (tileOf st) (r % tileHOf st) (c % tileWOf st) := rfl
  rw [h1, getD_map_range _ _ _ _ hr, getD_map_range _ _ _ _ hc]

/-- Witness for C4 at a concrete state and position. -/
theorem c4_tiling_witness :
    getCell (generateGrid sampleState) 3 2 =
      getCell (tileOf sampleState) (3 % tileHOf sampleState)
        (2 % tileWOf sampleState) :=
  c4_tiling sampleState 3 2 (by decide) (by decide)

/-! ## The symmetry source is always in bounds and canonical (C10, C2) -/

/-- Quadrant classification lemmas for the square `FourWay` branch. -/
theorem fourWayTurns_tl {half row col : Nat} (h1 : row < half) (h2 : col < half) :
    fourWayTurns half row col = 0 := by
  unfold fourWayTurns
  rw [if_neg (by omega), if_neg (by omega), if_neg (by omega)]

theorem fourWayTurns_tr {half row col : Nat} (h1 : row < half) (h2 : half ≤ col) :
    fourWayTurns half row col = 1 := by
  unfold fourWayTurns
  rw [if_pos ⟨h1, h2⟩]

theorem fourWayTurns_br {half row col : Nat} (h1 : half ≤ row) (h2 : half ≤ col) :
    fourWayTurns half row col = 2 := by
  unfold fourWayTurns
  rw [if_neg (by omega), if_pos ⟨h1, h2⟩]

theorem fourWayTurns_bl {half row col : Nat} (h1 : half ≤ row) (h2 : col < half) :
    fourWayTurns half row col = 3 := by
  unfold fourWayTurns
  rw [if_neg (by omega), if_neg (by omega), if_pos ⟨h1, h2⟩]

/-- Rotated-back coordinates in each quadrant. -/
theorem fourWayPre_tl {size row col : Nat} (h1 : row < (size + 1) / 2)
    (h2 : col < (size + 1) / 2) :
    fourWayPreRow size row col = row ∧ fourWayPreCol size row col = col := by
  unfold fourWayPreRow fourWayPreCol
  rw [fourWayTurns_tl h1 h2]
  simp

theorem fourWayPre_tr {size row col : Nat} (h1 : row < (size + 1) / 2)
    (h2 : (size + 1) / 2 ≤ col) :
    fourWayPreRow size row col = size - 1 - col ∧
      fourWayPreCol size row col = row := by
  unfold fourWayPreRow fourWayPreCol
  rw [fourWayTurns_tr h1 h2]
  simp

theorem fourWayPre_br {size row col : Nat} (h1 : (size + 1) / 2 ≤ row)
    (h2 : (size + 1) / 2 ≤ col) :
    fourWayPreRow size row col = size - 1 - row ∧
      fourWayPreCol size row col = size - 1 - col := by
  unfold fourWayPreRow fourWayPreCol
  rw [fourWayTurns_br h1 h2]
  simp

theorem fourWayPre_bl {size row col : Nat} (h1 : (size + 1) / 2 ≤ row)
    (h2 : col < (size + 1) / 2) :
    fourWayPreRow size row col = col ∧
      fourWayPreCol size row col = size - 1 - row := by
  unfold fourWayPreRow fourWayPreCol
  rw [fourWayTurns_bl h1 h2]
  simp

/-- A cell of the top-left quadrant at or above its main diagonal is
canonical for the square `FourWay` resolver. -/
theorem fourWaySquareSource_canonical (size r c : Nat) (hrc : r ≤ c)
    (hch : c < (size + 1) / 2) :
    fourWaySquareSource size r c = Option.none := by
  have hrh : r < (size + 1) / 2 := Nat.lt_of_le_of_lt hrc hch
  obtain ⟨hA, hB⟩ := @fourWayPre_tl size r c hrh hch
  unfold fourWaySquareSource
  rw [if_pos ⟨fourWayTurns_tl hrh hch, by rw [hA, hB]; omega⟩]

/-- The square `FourWay` resolver sends every derived in-range cell to an
in-bounds canonical source. -/
theorem fourWaySquareSourceSpec (size row col : Nat) (hr : row < size)
    (hc : col < size) (src : SymSource)
    (h : fourWaySquareSource size row col = Option.some src) :
    src.srcRow < size ∧ src.srcCol < size ∧
      fourWaySquareSource size src.srcRow src.srcCol = Option.none := by
  by_cases h1 : row < (size + 1) / 2 <;> by_cases h2 : col < (size + 1) / 2
  · obtain ⟨hA, hB⟩ := fourWayPre_tl h1 h2
    unfold fourWaySquareSource at h
    rw [hA, hB, fourWayTurns_tl h1 h2] at h
    by_cases hd : col < row
    · rw [if_neg (fun hk => hk.2 hd)] at h
      injection h with h3
      subst h3
      dsimp only
      refine ⟨?_, ?_, ?_⟩ <;> simp only [if_pos hd]
      · omega
      · omega
      · exact fourWaySquareSource_canonical size col row (Nat.le_of_lt hd) h1
    · rw [if_pos ⟨rfl, hd⟩] at h
      exact Option.noConfusion h
  · obtain ⟨hA, hB⟩ := @fourWayPre_tr size row col h1 (by omega)
    unfold fourWaySquareSource at h
    rw [hA, hB, @fourWayTurns_tr ((size + 1) / 2) row col h1 (by omega)] at h
    rw [if_neg (by simp)] at h
    injection h with h3
    subst h3
    dsimp only
    by_cases hd : row < size - 1 - col
    · refine ⟨?_, ?_, ?_⟩ <;> simp only [if_pos hd]
      · omega
      · omega
      · exact fourWaySquareSource_canonical size row (size - 1 - col) (Nat.le_of_lt hd) (by omega)
    · refine ⟨?_, ?_, ?_⟩ <;> simp only [if_neg hd]
      · omega
      · omega
      · exact fourWaySquareSource_canonical size (size - 1 - col) row (by omega) h1
  · obtain ⟨hA, hB⟩ := @fourWayPre_bl size row col (by omega) h2
    unfold fourWaySquareSource at h
    rw [hA, hB, @fourWayTurns_bl ((size + 1) / 2) row col (by omega) h2] at h
    rw [if_neg (by simp)] at h
    injection h with h3
    subst h3
    dsimp only
    by_cases hd : size - 1 - row < col
    · refine ⟨?_, ?_, ?_⟩ <;> simp only [if_pos hd]
      · omega
      · omega
      · exact fourWaySquareSource_canonical size (size - 1 - row) col (Nat.le_of_lt hd) h2
    · refine ⟨?_, ?_, ?_⟩ <;> simp only [if_neg hd]
      · omega
      · omega
      · exact fourWaySquareSource_canonical size col (size - 1 - row) (by omega) (by omega)
  · obtain ⟨hA, hB⟩ := @fourWayPre_br size row col (by omega) (by omega)
    unfold fourWaySquareSource at h
    rw [hA, hB, @fourWayTurns_br ((size + 1) / 2) row col (by omega) (by omega)] at h
    rw [if_neg (by simp)] at h
    injection h with h3
    subst h3
    dsimp only
    by_cases hd : size - 1 - col < size - 1 - row
    · refine ⟨?_, ?_, ?_⟩ <;> simp only [if_pos hd]
      · omega
      · omega
      · exact fourWaySquareSource_canonical size (size - 1 - col) (size - 1 - row) (Nat.le_of_lt hd) (by omega)
    · refine ⟨?_, ?_, ?_⟩ <;> simp only [if_neg hd]
      · omega
      · omega
      · exact fourWaySquareSource_canonical size (size - 1 - row) (size - 1 - col) (by omega) (by omega)


/-- Core invariant of `getSymmetrySource`: whenever it resolves an
in-range cell to a source, that source is in bounds and is itself
canonical (resolves to null), in every mode. -/
theorem symmetrySourceSpec (mode : SymmetryMode) (tileW tileH row col : Nat)
    (hr : row < tileH) (hc : col < tileW) (src : SymSource)
    (h : getSymmetrySource row col tileW tileH mode = Option.some src) :
    src.srcRow < tileH ∧ src.srcCol < tileW ∧
      getSymmetrySource src.srcRow src.srcCol tileW tileH mode = Option.none := by
  cases mode with
  | none => exact Option.noConfusion h
  | horizontal =>
      simp only [getSymmetrySource] at h
      split_ifs at h with h1
      injection h with h2
      subst h2
      dsimp only
      refine ⟨hr, by omega, ?_⟩
      simp only [getSymmetrySource]
      rw [if_pos (by omega)]
  | vertical =>
      simp only [getSymmetrySource] at h
      split_ifs at h with h1
      injection h with h2
      subst h2
      dsimp only
      refine ⟨by omega, hc, ?_⟩
      simp only [getSymmetrySource]
      rw [if_pos (by omega)]
  | diagonalTLBR =>
      simp only [getSymmetrySource] at h
      split_ifs at h with h1 h2
      injection h with h3
      subst h3
      dsimp only
      refine ⟨by omega, by omega, ?_⟩
      simp only [getSymmetrySource]
      rw [if_pos (by omega)]
  | diagonalTRBL =>
      simp only [getSymmetrySource] at h
      split_ifs at h with h1 h2
      push_neg at h2
      injection h with h3
      subst h3
      dsimp only
      refine ⟨by omega, by omega, ?_⟩
      simp only [getSymmetrySource]
      rw [if_pos (by omega)]
  | rotational =>
      simp only [getSymmetrySource] at h
      split_ifs at h with h1 h2
      injection h with h3
      subst h3
      dsimp only
      refine ⟨by omega, by omega, ?_⟩
      simp only [getSymmetrySource]
      rw [if_pos (by omega)]
  | fourWay =>
      simp only [getSymmetrySource] at h
      by_cases hsq : tileW ≠ tileH
      · rw [if_pos hsq] at h
        by_cases hrh : row < (tileH + 1) / 2 <;>
          by_cases hcw : col < (tileW + 1) / 2
        · rw [if_pos ⟨hrh, hcw⟩] at h
          exact Option.noConfusion h
        · rw [if_neg (by tauto), if_pos ⟨by omega, hrh⟩] at h
          injection h with h3
          subst h3
          dsimp only
          rw [if_pos hrh, if_neg hcw]
          refine ⟨hr, by omega, ?_⟩
          simp only [getSymmetrySource]
          rw [if_pos hsq, if_pos ⟨hrh, by omega⟩]
        · rw [if_neg (by tauto), if_neg (by tauto), if_pos ⟨hcw, by omega⟩] at h
          injection h with h3
          subst h3
          dsimp only
          rw [if_neg hrh, if_pos hcw]
          refine ⟨by omega, hc, ?_⟩
          simp only [getSymmetrySource]
          rw [if_pos hsq, if_pos ⟨by omega, hcw⟩]
        · rw [if_neg (by tauto), if_neg (by tauto), if_neg (by tauto)] at h
          injection h with h3
          subst h3
          dsimp only
          rw [if_neg hrh, if_neg hcw]
          refine ⟨by omega, by omega, ?_⟩
          simp only [getSymmetrySource]
          rw [if_pos hsq, if_pos ⟨by omega, by omega⟩]
      · rw [if_neg hsq] at h
        have hWH : tileW = tileH := not_not.mp hsq
        subst hWH
        obtain ⟨hb1, hb2, hcan⟩ := fourWaySquareSourceSpec tileW row col hr hc src h
        refine ⟨hb1, hb2, ?_⟩
        simp only [getSymmetrySource]
        rw [if_neg hsq]
        exact hcan

/-- C10: in every symmetry mode, whenever `getSymmetrySource` resolves an
in-range cell of a `tileW × tileH` tile (both ≥ 1) to a source, the
source position is in bounds and is itself canonical (resolves to null) —
the row-major symmetry pass never copies from a derived cell. -/
theorem c10_source_in_bounds_and_canonical (mode : SymmetryMode)
    (tileW tileH row col : Nat) (hW : 1 ≤ tileW) (hH : 1 ≤ tileH)
    (hr : row < tileH) (hc : col < tileW) (src : SymSource)
    (h : getSymmetrySource row col tileW tileH mode = Option.some src) :
    src.srcRow < tileH ∧ src.srcCol < tileW ∧
      getSymmetrySource src.srcRow src.srcCol tileW tileH mode = Option.none :=
  symmetrySourceSpec mode tileW tileH row col hr hc src h

/-- Witness for C10: Horizontal mode on a 2-wide, 1-tall tile. -/
theorem c10_source_in_bounds_and_canonical_witness :
    (0 : Nat) < 1 ∧ (0 : Nat) < 2 ∧
      getSymmetrySource 0 0 2 1 .horizontal = Option.none :=
  c10_source_in_bounds_and_canonical .horizontal 2 1 0 1 (by decide)
    (by decide) (by decide) (by decide) ⟨0, 0, mirrorH⟩ rfl

/-! ## Cell update lemmas and tile dimensions -/

theorem getD_set_self_lt {α : Type} (l : List α) (i : Nat) (a d : α)
    (h : i < l.length) : (l.set i a).getD i d = a := by
  rw [List.getD_eq_getElem _ _ (by simpa using h)]
  simp [List.getElem_set_self]

theorem getD_set_ne {α : Type} (l : List α) (i j : Nat) (a d : α)
    (h : i ≠ j) : (l.set i a).getD j d = l.getD j d := by
  simp [List.getD, List.getElem?_set_ne h]

theorem getCell_setCell_ne (t : List (List QuiltBlock)) (r c r' c' : Nat)
    (b : QuiltBlock) (hne : r ≠ r' ∨ c ≠ c') :
    getCell (setCell t r c b) r' c' = getCell t r' c' := by
  unfold getCell setCell
  rcases Decidable.em (r = r') with hrr | hrr
  · subst hrr
    have hcc : c ≠ c' := hne.resolve_left (fun hk => hk rfl)
    by_cases hlen : r < t.length
    · rw [getD_set_self_lt _ _ _ _ hlen, getD_set_ne _ _ _ _ _ hcc]
    · rw [List.set_eq_of_length_le (by omega)]
  · rw [getD_set_ne _ _ _ _ _ hrr]

theorem getCell_setCell_eq (t : List (List QuiltBlock)) (r c : Nat)
    (b : QuiltBlock) (hr : r < t.length) (hc : c < (t.getD r []).length) :
    getCell (setCell t r c b) r c = b := by
  unfold getCell setCell
  rw [getD_set_self_lt _ _ _ _ hr, getD_set_self_lt _ _ _ _ hc]

/-- The tile is a `h`-row list of `w`-long rows. -/
def tileDims (t : List (List QuiltBlock)) (h w : Nat) : Prop :=
  t.length = h ∧ ∀ r ∈ t, r.length = w

theorem tileDims_setCell (t : List (List QuiltBlock)) (h w r c : Nat)
    (b : QuiltBlock) (hd : tileDims t h w) :
    tileDims (setCell t r c b) h w := by
  refine ⟨by simpa [setCell, List.length_set] using hd.1, ?_⟩
  intro row hrow
  unfold setCell at hrow
  by_cases hl : r < t.length
  · rcases List.mem_or_eq_of_mem_set hrow with h1 | h1
    · exact hd.2 row h1
    · subst h1
      rw [List.length_set]
      exact hd.2 _ (by rw [List.getD_eq_getElem _ _ hl]; exact List.getElem_mem hl)
  · rw [List.set_eq_of_length_le (by omega)] at hrow
    exact hd.2 row hrow

theorem fillRow_fst_length (pool : List ShapeType) (colors : List String)
    (n s : Nat) : (fillRow pool colors n s).1.length = n := by
  induction n generalizing s with
  | zero => rfl
  | succ k ih => simp [fillRow, ih]

theorem fillTile_dims (pool : List ShapeType) (colors : List String)
    (tileW tileH s : Nat) :
    tileDims (fillTile pool colors tileW tileH s).1 tileH tileW := by
  induction tileH generalizing s with
  | zero => exact ⟨rfl, by intro r hr; cases hr⟩
  | succ k ih =>
      refine ⟨by simp [fillTile, (ih _).1], ?_⟩
      intro r hr
      simp only [fillTile, List.mem_cons] at hr
      rcases hr with rfl | hr
      · exact fillRow_fst_length pool colors tileW s
      · exact (ih _).2 r hr

theorem foldl_setColorAt_dims (h w : Nat)
    (l : List ((Nat × Nat × Nat) × String)) (t : List (List QuiltBlock))
    (hd : tileDims t h w) :
    tileDims (l.foldl (fun t2 pc => setColorAt t2 pc.1 pc.2) t) h w := by
  induction l generalizing t with
  | nil => exact hd
  | cons pc rest ih =>
      rw [List.foldl_cons]
      exact ih _ (tileDims_setCell _ _ _ _ _ _ hd)

theorem ensureAllColorsUsed_dims (h w : Nat) (t : List (List QuiltBlock))
    (colors : List String) (s : Nat) (mode : SymmetryMode)
    (hd : tileDims t h w) :
    tileDims (ensureAllColorsUsed t colors s mode).1 h w := by
  unfold ensureAllColorsUsed
  split_ifs
  · exact hd
  · exact foldl_setColorAt_dims h w _ t hd

theorem preSymTile_dims (tileW tileH : Nat) (mode : SymmetryMode) (s : Nat)
    (pool : List ShapeType) (colors : List String) (exact : Bool) :
    tileDims (preSymTile tileW tileH mode s pool colors exact).1 tileH tileW := by
  unfold preSymTile
  split_ifs
  · exact ensureAllColorsUsed_dims _ _ _ _ _ _ (fillTile_dims pool colors tileW tileH s)
  · exact fillTile_dims pool colors tileW tileH s

/-! ## The symmetry pass (C2) -/

theorem symPass_cons (tileW tileH symmetry : Nat) (mode : SymmetryMode)
    (p : Nat × Nat) (rest : List (Nat × Nat)) (t : List (List QuiltBlock))
    (s : Nat) :
    symPass tileW tileH symmetry mode (p :: rest) t s =
      symPass tileW tileH symmetry mode rest
        (symStep tileW tileH symmetry mode (t, s) p).1
        (symStep tileW tileH symmetry mode (t, s) p).2 := by
  unfold symPass
  rw [List.foldl_cons]

theorem symStep_dims (tileW tileH symmetry : Nat) (mode : SymmetryMode)
    (t : List (List QuiltBlock)) (s : Nat) (p : Nat × Nat)
    (hd : tileDims t tileH tileW) :
    tileDims (symStep tileW tileH symmetry mode (t, s) p).1 tileH tileW := by
  unfold symStep
  cases hq : getSymmetrySource p.1 p.2 tileW tileH mode with
  | none => exact hd
  | some src =>
      dsimp only
      split_ifs
      · exact tileDims_setCell _ _ _ _ _ _ hd
      · exact hd

theorem symPass_dims (tileW tileH symmetry : Nat) (mode : SymmetryMode)
    (ps : List (Nat × Nat)) (t : List (List QuiltBlock)) (s : Nat)
    (hd : tileDims t tileH tileW) :
    tileDims (symPass tileW tileH symmetry mode ps t s).1 tileH tileW := by
  induction ps generalizing t s with
  | nil => exact hd
  | cons p rest ih =>
      rw [symPass_cons]
      exact ih _ _ (symStep_dims _ _ _ _ _ _ _ hd)

theorem symStep_getCell_ne (tileW tileH symmetry : Nat) (mode : SymmetryMode)
    (t : List (List QuiltBlock)) (s : Nat) (p : Nat × Nat) (r c : Nat)
    (hne : p ≠ (r, c)) :
    getCell (symStep tileW tileH symmetry mode (t, s) p).1 r c =
      getCell t r c := by
  unfold symStep
  cases hq : getSymmetrySource p.1 p.2 tileW tileH mode with
  | none => rfl
  | some src =>
      dsimp only
      split_ifs
      · exact getCell_setCell_ne _ _ _ _ _ _ (by
          by_contra hcon
          push_neg at hcon
          exact hne (Prod.ext hcon.1 hcon.2))
      · rfl

theorem symPass_getCell_not_mem (tileW tileH symmetry : Nat)
    (mode : SymmetryMode) (ps : List (Nat × Nat))
    (t : List (List QuiltBlock)) (s : Nat) (r c : Nat)
    (hnm : (r, c) ∉ ps) :
    getCell (symPass tileW tileH symmetry mode ps t s).1 r c =
      getCell t r c := by
  induction ps generalizing t s with
  | nil => rfl
  | cons p rest ih =>
      simp only [List.mem_cons, not_or] at hnm
      rw [symPass_cons, ih _ _ hnm.2,
        symStep_getCell_ne _ _ _ _ _ _ _ _ _ (fun hk => hnm.1 hk.symm)]

theorem symStep_getCell_canonical (tileW tileH symmetry : Nat)
    (mode : SymmetryMode) (t : List (List QuiltBlock)) (s : Nat)
    (p : Nat × Nat) (r c : Nat)
    (hcan : getSymmetrySource r c tileW tileH mode = Option.none) :
    getCell (symStep tileW tileH symmetry mode (t, s) p).1 r c =
      getCell t r c := by
  rcases Decidable.em (p = (r, c)) with hp | hp
  · subst hp
    unfold symStep
    rw [hcan]
  · exact symStep_getCell_ne _ _ _ _ _ _ _ _ _ hp

theorem symPass_getCell_canonical (tileW tileH symmetry : Nat)
    (mode : SymmetryMode) (ps : List (Nat × Nat))
    (t : List (List QuiltBlock)) (s : Nat) (r c : Nat)
    (hcan : getSymmetrySource r c tileW tileH mode = Option.none) :
    getCell (symPass tileW tileH symmetry mode ps t s).1 r c =
      getCell t r c := by
  induction ps generalizing t s with
  | nil => rfl
  | cons p rest ih =>
      rw [symPass_cons, ih _ _,
        symStep_getCell_canonical _ _ _ _ _ _ _ _ _ hcan]

theorem mem_rowMajor (tileH tileW r c : Nat) :
    (r, c) ∈ rowMajor tileH tileW ↔ r < tileH ∧ c < tileW := by
  unfold rowMajor
  simp only [List.mem_flatMap, List.mem_map, List.mem_range, Prod.mk.injEq]
  constructor
  · rintro ⟨a, ha, b, hb, hra, hcb⟩
    exact ⟨hra ▸ ha, hcb ▸ hb⟩
  · rintro ⟨h1, h2⟩
    exact ⟨r, h1, c, h2, rfl, rfl⟩

theorem nodup_rowMajor (tileH tileW : Nat) : (rowMajor tileH tileW).Nodup := by
  unfold rowMajor
  apply List.nodup_flatMap.mpr
  refine ⟨?_, ?_⟩
  · intro row _
    exact (List.nodup_range tileW).map
      (fun a b h => by simpa using congrArg Prod.snd h)
  · apply List.Pairwise.imp ?_ (List.pairwise_lt_range tileH)
    intro a b hab x hxa hxb
    simp only [List.mem_map, List.mem_range] at hxa hxb
    obtain ⟨ca, _, hca⟩ := hxa
    obtain ⟨cb, _, hcb⟩ := hxb
    have : a = b := by
      have h1 := congrArg Prod.fst hca
      have h2 := congrArg Prod.fst hcb
      simp only at h1 h2
      omega
    omega

/-- At strength 100 the symmetry pass forces every listed derived cell to
equal the transform of its (canonical, untouched) source. -/
theorem symPass_forced (tileW tileH : Nat) (mode : SymmetryMode)
    (ps : List (Nat × Nat)) :
    ∀ t s, tileDims t tileH tileW →
      (∀ p ∈ ps, p.1 < tileH ∧ p.2 < tileW) → ps.Nodup →
      ∀ r c src, (r, c) ∈ ps →
        getSymmetrySource r c tileW tileH mode = Option.some src →
        getCell (symPass tileW tileH 100 mode ps t s).1 r c =
          src.transform
            (getCell (symPass tileW tileH 100 mode ps t s).1
              src.srcRow src.srcCol) := by
  induction ps with
  | nil =>
      intro t s _ _ _ r c src hmem _
      cases hmem
  | cons p rest ih =>
      intro t s hdims hps hnd r c src hmem hsrc
      rw [symPass_cons]
      rcases List.mem_cons.mp hmem with heq | hmem2
      · subst heq
        have hrc := hps (r, c) (List.mem_cons_self _ _)
        obtain ⟨hb1, hb2, hcan⟩ :=
          symmetrySourceSpec mode tileW tileH r c hrc.1 hrc.2 src hsrc
        have hcond : (m32next s).1 * 100 < 100 * U32 := by
          have hv := m32next_fst_lt s
          omega
        have hstep : symStep tileW tileH 100 mode (t, s) (r, c) =
            (setCell t r c (src.transform (getCell t src.srcRow src.srcCol)),
             (m32next s).2) := by
          unfold symStep
          dsimp only
          rw [hsrc]
          dsimp only
          rw [if_pos hcond]
        rw [hstep]
        have hnm : (r, c) ∉ rest := by
          rw [List.nodup_cons] at hnd
          exact hnd.1
        rw [symPass_getCell_not_mem _ _ _ _ _ _ _ _ _ hnm]
        rw [symPass_getCell_canonical _ _ _ _ _ _ _ _ _ hcan]
        have hrow : r < t.length := by rw [hdims.1]; exact hrc.1
        have hcol : c < (t.getD r []).length := by
          rw [hdims.2 _ (by rw [List.getD_eq_getElem _ _ hrow]; exact List.getElem_mem hrow)]
          exact hrc.2
        rw [getCell_setCell_eq _ _ _ _ hrow hcol]
        rw [getCell_setCell_ne _ _ _ _ _ _ (by
          by_contra hcon
          push_neg at hcon
          rw [hcon.1, hcon.2] at hsrc
          rw [hcan] at hsrc
          exact Option.noConfusion hsrc)]
      · rw [List.nodup_cons] at hnd
        exact ih _ _ (symStep_dims _ _ _ _ _ _ _ hdims)
          (fun q hq => hps q (List.mem_cons_of_mem _ hq)) hnd.2 r c src
          hmem2 hsrc

/-- C2: with symmetry strength 100 and a non-None mode, every derivable
in-range cell of the generated tile equals the resolver's transform
applied to the resolver's source cell — exactly, for every PRNG seed
state, shape pool, palette and exact-colors flag. -/
theorem c2_symmetry_strength_100 (tileW tileH : Nat) (mode : SymmetryMode)
    (s : Nat) (pool : List ShapeType) (paletteColors : List String)
    (exactColors : Bool) (hmode : mode ≠ SymmetryMode.none)
    (row col : Nat) (hr : row < tileH) (hc : col < tileW) (src : SymSource)
    (hsrc : getSymmetrySource row col tileW tileH mode = Option.some src) :
    getCell (generateTile tileW tileH 100 mode s pool paletteColors
        exactColors).1 row col =
      src.transform
        (getCell (generateTile tileW tileH 100 mode s pool paletteColors
            exactColors).1 src.srcRow src.srcCol) := by
  unfold generateTile
  rw [if_neg hmode]
  exact symPass_forced tileW tileH mode (rowMajor tileH tileW) _ _
    (preSymTile_dims tileW tileH mode s pool paletteColors exactColors)
    (fun p hp => by
      rcases p with ⟨pr, pc⟩
      exact (mem_rowMajor tileH tileW pr pc).mp hp)
    (nodup_rowMajor tileH tileW) row col src
    ((mem_rowMajor tileH tileW row col).mpr ⟨hr, hc⟩) hsrc

/-- Witness for C2: a 2-wide, 1-tall HST tile under Horizontal mode. -/
theorem c2_symmetry_strength_100_witness :
    getCell (generateTile 2 1 100 .horizontal (m32init 5) [ShapeType.hst]
        ["#AA0000", "#00BB00"] false).1 0 1 =
      mirrorH (getCell (generateTile 2 1 100 .horizontal (m32init 5)
          [ShapeType.hst] ["#AA0000", "#00BB00"] false).1 0 0) :=
  c2_symmetry_strength_100 2 1 .horizontal (m32init 5) [ShapeType.hst]
    ["#AA0000", "#00BB00"] false (by decide) 0 1 (by decide) (by decide)
    ⟨0, 0, mirrorH⟩ rfl

/-! ## Shape/slot-count invariant (C5) -/

/-- Required color-slot count per shape (spec section 3; used by the
renderer's per-shape drawing in `src/shapes.ts`). -/
def slotCount : ShapeType → Nat
  | .square => 1
  | .hst => 2
  | .qst => 4
  | .hstSplit => 3

/-- A block whose color list matches its shape's slot count and whose
shape is a generatable one (not the derived-only HSTSplit). -/
def goodBlock (b : QuiltBlock) : Prop :=
  b.colors.length = slotCount b.shape ∧ b.shape ≠ ShapeType.hstSplit

theorem mirrorH_good (b : QuiltBlock) (h : goodBlock b) :
    goodBlock (mirrorH b) := by
  obtain ⟨h1, h2⟩ := h
  unfold mirrorH
  cases hb : b.shape <;> simp_all [goodBlock, slotCount, hb]

theorem mirrorV_good (b : QuiltBlock) (h : goodBlock b) :
    goodBlock (mirrorV b) := by
  obtain ⟨h1, h2⟩ := h
  unfold mirrorV
  cases hb : b.shape <;> simp_all [goodBlock, slotCount, hb]

theorem rotate180_good (b : QuiltBlock) (h : goodBlock b) :
    goodBlock (rotate180 b) := by
  obtain ⟨h1, h2⟩ := h
  unfold rotate180
  cases hb : b.shape <;> simp_all [goodBlock, slotCount, hb]

theorem rotateCW_good (b : QuiltBlock) (turns : Nat) (h : goodBlock b) :
    goodBlock (rotateCW b turns) := by
  obtain ⟨h1, h2⟩ := h
  unfold rotateCW
  split_ifs <;> exact ⟨h1, h2⟩

theorem mirrorDiagTLBR_good (b : QuiltBlock) (h : goodBlock b) :
    goodBlock (mirrorDiagTLBR b) := by
  obtain ⟨h1, h2⟩ := h
  unfold mirrorDiagTLBR
  cases hb : b.shape <;> simp_all [goodBlock, slotCount, hb]

theorem mirrorDiagTRBL_good (b : QuiltBlock) (h : goodBlock b) :
    goodBlock (mirrorDiagTRBL b) := by
  obtain ⟨h1, h2⟩ := h
  unfold mirrorDiagTRBL
  cases hb : b.shape <;> simp_all [goodBlock, slotCount, hb]

/-- Every transform handed out by the resolver preserves `goodBlock`. -/
theorem sourceTransform_good (mode : SymmetryMode) (tileW tileH row col : Nat)
    (src : SymSource)
    (h : getSymmetrySource row col tileW tileH mode = Option.some src)
    (b : QuiltBlock) (hb : goodBlock b) : goodBlock (src.transform b) := by
  cases mode with
  | none => exact Option.noConfusion h
  | horizontal =>
      simp only [getSymmetrySource] at h
      split_ifs at h
      injection h with h2
      subst h2
      exact mirrorH_good b hb
  | vertical =>
      simp only [getSymmetrySource] at h
      split_ifs at h
      injection h with h2
      subst h2
      exact mirrorV_good b hb
  | diagonalTLBR =>
      simp only [getSymmetrySource] at h
      split_ifs at h
      injection h with h2
      subst h2
      exact mirrorDiagTLBR_good b hb
  | diagonalTRBL =>
      simp only [getSymmetrySource] at h
      split_ifs at h
      injection h with h2
      subst h2
      exact mirrorDiagTRBL_good b hb
  | rotational =>
      simp only [getSymmetrySource] at h
      split_ifs at h
      injection h with h2
      subst h2
      exact rotate180_good b hb
  | fourWay =>
      simp only [getSymmetrySource] at h
      split_ifs at h <;>
        first
          | exact Option.noConfusion h
          | (injection h with h2
             subst h2
             first
               | exact mirrorH_good b hb
               | exact mirrorV_good b hb
               | exact mirrorH_good _ (mirrorV_good b hb))
          | (unfold fourWaySquareSource at h
             split_ifs at h <;>
               first
                 | exact Option.noConfusion h
                 | (injection h with h2
                    subst h2
                    dsimp only
                    first
                      | exact rotateCW_good _ _ (mirrorDiagTLBR_good b hb)
                      | exact rotateCW_good _ _ hb
                      | exact mirrorDiagTLBR_good b hb
                      | exact hb))

/-- Every cell of the tile is a good block. -/
def allCellsGood (t : List (List QuiltBlock)) : Prop :=
  ∀ row ∈ t, ∀ b ∈ row, goodBlock b

theorem randomBlock_good (s : Nat) (pool : List ShapeType)
    (colors : List String) (hne : pool ≠ [])
    (hpool : ∀ sh ∈ pool, sh ≠ ShapeType.hstSplit) :
    goodBlock (randomBlock s pool colors).1 := by
  have hmem := m32pick_fst_mem s pool ShapeType.square hne
  have hsh := hpool _ hmem
  unfold randomBlock
  rcases hq : m32pick s pool ShapeType.square with ⟨shape, s1⟩
  rw [hq] at hmem hsh
  cases shape <;> simp_all [goodBlock, slotCount]

theorem fillRow_good (pool : List ShapeType) (colors : List String)
    (hne : pool ≠ []) (hpool : ∀ sh ∈ pool, sh ≠ ShapeType.hstSplit)
    (n s : Nat) : ∀ b ∈ (fillRow pool colors n s).1, goodBlock b := by
  induction n generalizing s with
  | zero => intro b hb; cases hb
  | succ k ih =>
      intro b hb
      simp only [fillRow, List.mem_cons] at hb
      rcases hb with rfl | hb
      · exact randomBlock_good _ _ _ hne hpool
      · exact ih _ b hb

theorem fillTile_good (pool : List ShapeType) (colors : List String)
    (hne : pool ≠ []) (hpool : ∀ sh ∈ pool, sh ≠ ShapeType.hstSplit)
    (tileW tileH s : Nat) :
    allCellsGood (fillTile pool colors tileW tileH s).1 := by
  induction tileH generalizing s with
  | zero => intro row hrow; cases hrow
  | succ k ih =>
      intro row hrow
      simp only [fillTile, List.mem_cons] at hrow
      rcases hrow with rfl | hrow
      · exact fillRow_good pool colors hne hpool tileW s
      · exact ih _ row hrow

theorem allCellsGood_setCell (t : List (List QuiltBlock)) (r c : Nat)
    (b : QuiltBlock) (hall : allCellsGood t) (hb : goodBlock b) :
    allCellsGood (setCell t r c b) := by
  unfold setCell
  intro row hrow x hx
  by_cases hl : r < t.length
  · rcases List.mem_or_eq_of_mem_set hrow with h1 | h1
    · exact hall row h1 x hx
    · subst h1
      have hrowmem : t.getD r [] ∈ t := by
        rw [List.getD_eq_getElem _ _ hl]
        exact List.getElem_mem hl
      rcases List.mem_or_eq_of_mem_set hx with h2 | h2
      · exact hall _ hrowmem x h2
      · subst h2; exact hb
  · rw [List.set_eq_of_length_le (by omega)] at hrow
    exact hall row hrow x hx

theorem getCell_good (t : List (List QuiltBlock)) (h w r c : Nat)
    (hdims : tileDims t h w) (hall : allCellsGood t) (hr : r < h)
    (hc : c < w) : goodBlock (getCell t r c) := by
  have hrow : r < t.length := by rw [hdims.1]; exact hr
  have hrowmem : t.getD r [] ∈ t := by
    rw [List.getD_eq_getElem _ _ hrow]
    exact List.getElem_mem hrow
  have hcol : c < (t.getD r []).length := by
    rw [hdims.2 _ hrowmem]; exact hc
  apply hall _ hrowmem
  unfold getCell
  rw [List.getD_eq_getElem _ _ hcol]
  exact List.getElem_mem hcol

theorem allCellsGood_setColorAt (t : List (List QuiltBlock))
    (pos : Nat × Nat × Nat) (color : String) (hall : allCellsGood t) :
    allCellsGood (setColorAt t pos color) := by
  unfold setColorAt setCell
  intro row hrow x hx
  by_cases hl : pos.1 < t.length
  · rcases List.mem_or_eq_of_mem_set hrow with h1 | h1
    · exact hall row h1 x hx
    · subst h1
      have hrowmem : t.getD pos.1 [] ∈ t := by
        rw [List.getD_eq_getElem _ _ hl]
        exact List.getElem_mem hl
      by_cases hcol : pos.2.1 < (t.getD pos.1 []).length
      · rcases List.mem_or_eq_of_mem_set hx with h2 | h2
        · exact hall _ hrowmem x h2
        · subst h2
          have hcell : getCell t pos.1 pos.2.1 ∈ t.getD pos.1 [] := by
            unfold getCell
            rw [List.getD_eq_getElem _ _ hcol]
            exact List.getElem_mem hcol
          have hgood := hall _ hrowmem _ hcell
          exact ⟨by simpa [List.length_set] using hgood.1, hgood.2⟩
      · rw [List.set_eq_of_length_le (by omega)] at hx
        exact hall _ hrowmem x hx
  · rw [List.set_eq_of_length_le (by omega)] at hrow
    exact hall row hrow x hx

theorem ensureAllColorsUsed_good (t : List (List QuiltBlock))
    (colors : List String) (s : Nat) (mode : SymmetryMode)
    (hall : allCellsGood t) :
    allCellsGood (ensureAllColorsUsed t colors s mode).1 := by
  unfold ensureAllColorsUsed
  split_ifs
  · exact hall
  · have hfold : ∀ (l : List ((Nat × Nat × Nat) × String))
        (t2 : List (List QuiltBlock)), allCellsGood t2 →
        allCellsGood (l.foldl (fun t3 pc => setColorAt t3 pc.1 pc.2) t2) := by
      intro l
      induction l with
      | nil => intro t2 h2; exact h2
      | cons pc rest ih =>
          intro t2 h2
          rw [List.foldl_cons]
          exact ih _ (allCellsGood_setColorAt _ _ _ h2)
    exact hfold _ t hall

theorem preSymTile_good (tileW tileH : Nat) (mode : SymmetryMode) (s : Nat)
    (pool : List ShapeType) (colors : List String) (exact : Bool)
    (hne : pool ≠ []) (hpool : ∀ sh ∈ pool, sh ≠ ShapeType.hstSplit) :
    allCellsGood (preSymTile tileW tileH mode s pool colors exact).1 := by
  unfold preSymTile
  split_ifs
  · exact ensureAllColorsUsed_good _ _ _ _
      (fillTile_good pool colors hne hpool tileW tileH s)
  · exact fillTile_good pool colors hne hpool tileW tileH s

theorem symStep_good (tileW tileH symmetry : Nat) (mode : SymmetryMode)
    (t : List (List QuiltBlock)) (s : Nat) (p : Nat × Nat)
    (hdims : tileDims t tileH tileW) (hp : p.1 < tileH ∧ p.2 < tileW)
    (hall : allCellsGood t) :
    allCellsGood (symStep tileW tileH symmetry mode (t, s) p).1 := by
  unfold symStep
  cases hq : getSymmetrySource p.1 p.2 tileW tileH mode with
  | none => exact hall
  | some src =>
      dsimp only
      split_ifs
      · obtain ⟨hb1, hb2, _⟩ :=
          symmetrySourceSpec mode tileW tileH p.1 p.2 hp.1 hp.2 src hq
        exact allCellsGood_setCell _ _ _ _ hall
          (sourceTransform_good mode tileW tileH p.1 p.2 src hq _
            (getCell_good t tileH tileW _ _ hdims hall hb1 hb2))
      · exact hall

theorem symPass_good (tileW tileH symmetry : Nat) (mode : SymmetryMode)
    (ps : List (Nat × Nat)) (t : List (List QuiltBlock)) (s : Nat)
    (hdims : tileDims t tileH tileW)
    (hps : ∀ p ∈ ps, p.1 < tileH ∧ p.2 < tileW) (hall : allCellsGood t) :
    allCellsGood (symPass tileW tileH symmetry mode ps t s).1 := by
  induction ps generalizing t s with
  | nil => exact hall
  | cons p rest ih =>
      rw [symPass_cons]
      exact ih _ _ (symStep_dims _ _ _ _ _ _ _ hdims)
        (fun q hq => hps q (List.mem_cons_of_mem _ hq))
        (symStep_good _ _ _ _ _ _ _ hdims (hps p (List.mem_cons_self _ _)) hall)

theorem generateTile_dims (tileW tileH symmetry : Nat) (mode : SymmetryMode)
    (s : Nat) (pool : List ShapeType) (colors : List String) (exact : Bool) :
    tileDims (generateTile tileW tileH symmetry mode s pool colors exact).1
      tileH tileW := by
  unfold generateTile
  split_ifs
  · exact preSymTile_dims tileW tileH mode s pool colors exact
  · exact symPass_dims _ _ _ _ _ _ _ (preSymTile_dims tileW tileH mode s pool colors exact)

theorem generateTile_good (tileW tileH symmetry : Nat) (mode : SymmetryMode)
    (s : Nat) (pool : List ShapeType) (colors : List String) (exact : Bool)
    (hne : pool ≠ []) (hpool : ∀ sh ∈ pool, sh ≠ ShapeType.hstSplit) :
    allCellsGood (generateTile tileW tileH symmetry mode s pool colors
      exact).1 := by
  unfold generateTile
  split_ifs
  · exact preSymTile_good tileW tileH mode s pool colors exact hne hpool
  · exact symPass_good _ _ _ _ _ _ _
      (preSymTile_dims tileW tileH mode s pool colors exact)
      (fun p hp => by
        rcases p with ⟨pr, pc⟩
        exact (mem_rowMajor tileH tileW pr pc).mp hp)
      (preSymTile_good tileW tileH mode s pool colors exact hne hpool)

theorem tileHOf_pos (st : AppState) (h : 1 ≤ st.gridHeight) :
    1 ≤ tileHOf st := by
  unfold tileHOf
  split_ifs <;> omega

theorem tileWOf_pos (st : AppState) (h : 1 ≤ st.gridWidth) :
    1 ≤ tileWOf st := by
  unfold tileWOf
  split_ifs <;> omega

/-- Every cell of the output grid is good, provided the derived-only
`HSTSplit` shape is disabled or has weight 0 (so it never enters the
pool). -/
theorem generateGrid_good (st : AppState)
    (hsp : st.enabledShapes .hstSplit = false ∨ st.shapeRatios .hstSplit = 0) :
    ∀ row ∈ generateGrid st, ∀ b ∈ row, goodBlock b := by
  intro row hrow b hb
  unfold generateGrid at hrow
  obtain ⟨r, hr, rfl⟩ := List.mem_map.mp hrow
  rw [List.mem_range] at hr
  obtain ⟨c, hc, rfl⟩ := List.mem_map.mp hb
  rw [List.mem_range] at hc
  have hH : 1 ≤ st.gridHeight := by omega
  have hW : 1 ≤ st.gridWidth := by omega
  have hth := tileHOf_pos st hH
  have htw := tileWOf_pos st hW
  have hpoolne := buildWeightedShapePool_ne_nil st
  have hpool : ∀ sh ∈ buildWeightedShapePool st, sh ≠ ShapeType.hstSplit := by
    intro sh hsh hk
    exact hstSplit_not_mem_pool st hsp (hk ▸ hsh)
  exact getCell_good _ (tileHOf st) (tileWOf st) _ _
    (generateTile_dims _ _ _ _ _ _ _ _)
    (generateTile_good _ _ _ _ _ _ _ _ hpoolne hpool)
    (Nat.mod_lt _ (by omega)) (Nat.mod_lt _ (by omega))

theorem qstMerge_wf (top right bottom left : String) (b : QuiltBlock)
    (h : b.colors.length = slotCount b.shape) :
    (qstMerge top right bottom left b).colors.length =
      slotCount (qstMerge top right bottom left b).shape := by
  unfold qstMerge
  by_cases h1 : colorEq top right = true <;>
    by_cases h2 : colorEq right bottom = true <;>
    by_cases h3 : colorEq bottom left = true <;>
    by_cases h4 : colorEq top left = true <;>
    by_cases h5 : colorEq left top = true <;>
    simp [h1, h2, h3, h4, h5, slotCount, h, Bool.not_eq_true]

/-- The simplifier preserves the slot-count invariant. -/
theorem simplifyBlock_wf (b : QuiltBlock)
    (h : b.colors.length = slotCount b.shape) :
    (simplifyBlock b).colors.length = slotCount (simplifyBlock b).shape := by
  rcases b with ⟨shape, colors, rot⟩
  cases shape with
  | square => exact h
  | hstSplit => exact h
  | hst =>
      have hred : simplifyBlock ⟨ShapeType.hst, colors, rot⟩ =
          if colorEq (colors.getD 0 "") (colors.getD 1 "") then
            (⟨ShapeType.square, [colors.getD 0 ""], 0⟩ : QuiltBlock)
          else ⟨ShapeType.hst, colors, rot⟩ := rfl
      rw [hred]
      split_ifs <;> first | rfl | exact h
  | qst =>
      have hred : simplifyBlock ⟨ShapeType.qst, colors, rot⟩ =
          qstMerge (colors.getD 0 "") (colors.getD 1 "") (colors.getD 2 "")
            (colors.getD 3 "") ⟨ShapeType.qst, colors, rot⟩ := rfl
      rw [hred]
      exact qstMerge_wf _ _ _ _ _ h

/-- A configuration with a non-empty palette whose enable/ratio records
turn on only `HSTSplit` (weight 1) — the pool is then `[HSTSplit]` and
`randomBlock`'s `default` switch branch builds every block with a single
color. Reachable as data via cartridge import (`src/community.ts`). -/
def c5FailState : AppState :=
  { gridWidth := 1, gridHeight := 1, seed := 3, symmetry := 0,
    symmetryMode := .none,
    enabledShapes := fun sh => decide (sh = .hstSplit),
    shapeRatios := fun _ => 1,
    paletteIndex := 0, customPalettes := [], paletteColorCount := 1,
    colorCountMode := "max", repeatWidth := 0, repeatHeight := 0 }

/-- Counterexample to C5 as stated: at `c5FailState` the palette is
non-empty, yet the generated block is an `HSTSplit` with 1 color (slot
count of `HSTSplit` is 3), refuting both slot-count conjuncts and the
"never HSTSplit before simplification" conjunct (the simplifier passes
`HSTSplit` through unchanged). -/
theorem c5_shape_counterexample :
    activePaletteColors c5FailState ≠ [] ∧
    (getCell (generateGrid c5FailState) 0 0).shape = ShapeType.hstSplit ∧
    (getCell (generateGrid c5FailState) 0 0).colors.length = 1 ∧
    (getCell (generateGrid c5FailState) 0 0).colors.length ≠
      slotCount (getCell (generateGrid c5FailState) 0 0).shape ∧
    (getCell (simplifyGrid (generateGrid c5FailState)) 0 0).colors.length ≠
      slotCount (getCell (simplifyGrid (generateGrid c5FailState)) 0 0).shape := by
  refine ⟨by decide, by decide, by decide, by decide, by decide⟩

/-- C5 (corrected): for every configuration with a non-empty active
palette in which the derived-only `HSTSplit` shape is disabled or has
weight 0 (as the defaults and the UI keep it), every block of
`generateGrid`'s output has `colors.length` equal to its shape's slot
count and is never an HSTSplit; after `simplifyGrid` every block
(HSTSplit included) still has `colors.length` equal to its shape's slot
count (1/2/4/3 for Square/HST/QST/HSTSplit). Without that proviso the
claim fails: enabling `hst-split` with positive weight puts `HSTSplit` in
the pool and the generator emits 1-color `HSTSplit` blocks. -/
theorem c5_shape_invariant (st : AppState)
    (hpal : activePaletteColors st ≠ [])
    (hsp : st.enabledShapes .hstSplit = false ∨ st.shapeRatios .hstSplit = 0) :
    (∀ row ∈ generateGrid st, ∀ b ∈ row,
        b.colors.length = slotCount b.shape ∧ b.shape ≠ ShapeType.hstSplit) ∧
    (∀ row2 ∈ simplifyGrid (generateGrid st), ∀ b2 ∈ row2,
        b2.colors.length = slotCount b2.shape) := by
  refine ⟨generateGrid_good st hsp, ?_⟩
  intro row2 hrow2 b2 hb2
  unfold simplifyGrid at hrow2
  obtain ⟨row, hrow, rfl⟩ := List.mem_map.mp hrow2
  obtain ⟨b, hb, rfl⟩ := List.mem_map.mp hb2
  exact simplifyBlock_wf b (generateGrid_good st hsp row hrow b hb).1

/-- Witness for C5 at a concrete configuration and cell. -/
theorem c5_shape_invariant_witness :
    activePaletteColors sampleState ≠ [] ∧
    (sampleState.enabledShapes .hstSplit = false ∨
      sampleState.shapeRatios .hstSplit = 0) ∧
    ((getCell (generateGrid sampleState) 0 0).colors.length =
        slotCount (getCell (generateGrid sampleState) 0 0).shape ∧
      (getCell (generateGrid sampleState) 0 0).shape ≠ ShapeType.hstSplit) := by
  refine ⟨by decide, Or.inl (by decide), ?_⟩
  have h := (c5_shape_invariant sampleState (by decide) (Or.inl (by decide))).1
  have hrow : (generateGrid sampleState).getD 0 [] ∈ generateGrid sampleState := by
    decide
  have hb : ((generateGrid sampleState).getD 0 []).getD 0 default ∈
      (generateGrid sampleState).getD 0 [] := by decide
  exact h _ hrow _ hb

/-! ## Simplifier idempotence (C9) -/

theorem colorEq_symm (a b : String) : colorEq a b = colorEq b a := by
  unfold colorEq
  by_cases h : upperColor a = upperColor b
  · rw [h]
  · rw [beq_eq_false_iff_ne.mpr h, beq_eq_false_iff_ne.mpr (fun hk => h hk.symm)]

theorem colorEq_trans {a b c : String} (h1 : colorEq a b = true)
    (h2 : colorEq b c = true) : colorEq a c = true := by
  unfold colorEq at *
  rw [beq_iff_eq] at *
  exact h1.trans h2

theorem colorEq_symm_true {a b : String} (h : colorEq a b = true) :
    colorEq b a = true := by
  rw [colorEq_symm]
  exact h

/-- An HST with (case-insensitively) distinct colors is a simplifier
fixed point. -/
theorem simplifyBlock_hst_ne (x y : String) (rt : Nat)
    (hxy : colorEq x y = false) :
    simplifyBlock ⟨ShapeType.hst, [x, y], rt⟩ = ⟨ShapeType.hst, [x, y], rt⟩ := by
  have hred : simplifyBlock ⟨ShapeType.hst, [x, y], rt⟩ =
      if colorEq x y then ⟨ShapeType.square, [x], 0⟩
      else ⟨ShapeType.hst, [x, y], rt⟩ := rfl
  rw [hred, hxy]
  rfl

/-- A simplified QST block is a fixed point of the simplifier. -/
theorem qstMerge_fix (cs : List String) (rt : Nat) :
    simplifyBlock (simplifyBlock ⟨ShapeType.qst, cs, rt⟩) =
      simplifyBlock ⟨ShapeType.qst, cs, rt⟩ := by
  have hred : simplifyBlock ⟨ShapeType.qst, cs, rt⟩ =
      qstMerge (cs.getD 0 "") (cs.getD 1 "") (cs.getD 2 "") (cs.getD 3 "")
        ⟨ShapeType.qst, cs, rt⟩ := rfl
  rw [hred]
  generalize hT : cs.getD 0 "" = t at hred ⊢
  generalize hR : cs.getD 1 "" = r at hred ⊢
  generalize hBo : cs.getD 2 "" = bo at hred ⊢
  generalize hL : cs.getD 3 "" = l at hred ⊢
  have hsymm : colorEq l t = colorEq t l := colorEq_symm l t
  cases hA : colorEq t r <;> cases hB : colorEq r bo <;>
    cases hC : colorEq bo l <;> cases hD : colorEq t l
  · -- A=F B=F C=F D=F : no rule applies, block unchanged
    have hE : colorEq l t = false := by rw [hsymm]; exact hD
    simp [qstMerge, hA, hB, hC, hD, hE]
    rw [hred]
    simp [qstMerge, hA, hB, hC, hD, hE]
  · -- A=F B=F C=F D=T : three-piece split (top-left corner solid)
    have hE : colorEq l t = true := by rw [hsymm]; exact hD
    simp [qstMerge, hA, hB, hC, hD, hE]
    rfl
  · -- A=F B=F C=T D=F : three-piece split
    have hE : colorEq l t = false := by rw [hsymm]; exact hD
    simp [qstMerge, hA, hB, hC, hD, hE]
    rfl
  · -- A=F B=F C=T D=T : bottom-left-top run, HST [r, bo]
    have hE : colorEq l t = true := by rw [hsymm]; exact hD
    simp [qstMerge, hA, hB, hC, hD, hE]
    exact simplifyBlock_hst_ne r bo 90 hB
  · -- A=F B=T C=F D=F : three-piece split
    have hE : colorEq l t = false := by rw [hsymm]; exact hD
    simp [qstMerge, hA, hB, hC, hD, hE]
    rfl
  · -- A=F B=T C=F D=T : diagonal pair, HST [l, r]
    have hE : colorEq l t = true := by rw [hsymm]; exact hD
    simp [qstMerge, hA, hB, hC, hD, hE]
    refine simplifyBlock_hst_ne l r 90 ?_
    cases hk : colorEq l r with
    | false => rfl
    | true =>
        exfalso
        have h1 : colorEq t r = true := colorEq_trans hD hk
        rw [h1] at hA
        exact Bool.noConfusion hA
  · -- A=F B=T C=T D=F : opposite pair, HST [t, r]
    have hE : colorEq l t = false := by rw [hsymm]; exact hD
    simp [qstMerge, hA, hB, hC, hD, hE]
    exact simplifyBlock_hst_ne t r 0 hA
  · -- A=F B=T C=T D=T : inconsistent color relations
    exfalso
    have h1 : colorEq t bo = true := colorEq_trans hD (colorEq_symm_true hC)
    have h2 : colorEq t r = true := colorEq_trans h1 (colorEq_symm_true hB)
    rw [h2] at hA
    exact Bool.noConfusion hA
  · -- A=T B=F C=F D=F : three-piece split
    have hE : colorEq l t = false := by rw [hsymm]; exact hD
    simp [qstMerge, hA, hB, hC, hD, hE]
    rfl
  · -- A=T B=F C=F D=T : left-top-right run, HST [bo, t]
    have hE : colorEq l t = true := by rw [hsymm]; exact hD
    simp [qstMerge, hA, hB, hC, hD, hE]
    refine simplifyBlock_hst_ne bo t 180 ?_
    cases hk : colorEq bo t with
    | false => rfl
    | true =>
        exfalso
        have h1 : colorEq r bo = true := colorEq_symm_true (colorEq_trans hk hA)
        rw [h1] at hB
        exact Bool.noConfusion hB
  · -- A=T B=F C=T D=F : anti-diagonal pair, HST [bo, t]
    have hE : colorEq l t = false := by rw [hsymm]; exact hD
    simp [qstMerge, hA, hB, hC, hD, hE]
    refine simplifyBlock_hst_ne bo t 0 ?_
    cases hk : colorEq bo t with
    | false => rfl
    | true =>
        exfalso
        have h1 : colorEq r bo = true := colorEq_symm_true (colorEq_trans hk hA)
        rw [h1] at hB
        exact Bool.noConfusion hB
  · -- A=T B=F C=T D=T : anti-diagonal pair, HST [bo, t]
    have hE : colorEq l t = true := by rw [hsymm]; exact hD
    simp [qstMerge, hA, hB, hC, hD, hE]
    refine simplifyBlock_hst_ne bo t 0 ?_
    cases hk : colorEq bo t with
    | false => rfl
    | true =>
        exfalso
        have h1 : colorEq r bo = true := colorEq_symm_true (colorEq_trans hk hA)
        rw [h1] at hB
        exact Bool.noConfusion hB
  · -- A=T B=T C=F D=F : top-right-bottom run, HST [l, t]
    have hE : colorEq l t = false := by rw [hsymm]; exact hD
    simp [qstMerge, hA, hB, hC, hD, hE]
    exact simplifyBlock_hst_ne l t 270 hE
  · -- A=T B=T C=F D=T : diagonal pair, HST [l, r]
    have hE : colorEq l t = true := by rw [hsymm]; exact hD
    simp [qstMerge, hA, hB, hC, hD, hE]
    refine simplifyBlock_hst_ne l r 90 ?_
    cases hk : colorEq l r with
    | false => rfl
    | true =>
        exfalso
        have h1 : colorEq bo l = true :=
          colorEq_trans (colorEq_symm_true hB) (colorEq_symm_true hk)
        rw [h1] at hC
        exact Bool.noConfusion hC
  · -- A=T B=T C=T D=F : all four equal, Square
    have hE : colorEq l t = false := by rw [hsymm]; exact hD
    simp [qstMerge, hA, hB, hC, hD, hE]
    rfl
  · -- A=T B=T C=T D=T : all four equal, Square
    have hE : colorEq l t = true := by rw [hsymm]; exact hD
    simp [qstMerge, hA, hB, hC, hD, hE]
    rfl

/-- Every output of `simplifyBlock` is a fixed point of `simplifyBlock`. -/
theorem simplifyBlock_fix (b : QuiltBlock) :
    simplifyBlock (simplifyBlock b) = simplifyBlock b := by
  rcases b with ⟨shape, colors, rot⟩
  cases shape with
  | square => rfl
  | hstSplit => rfl
  | hst =>
      have hred : simplifyBlock ⟨ShapeType.hst, colors, rot⟩ =
          if colorEq (colors.getD 0 "") (colors.getD 1 "") then
            (⟨ShapeType.square, [colors.getD 0 ""], 0⟩ : QuiltBlock)
          else ⟨ShapeType.hst, colors, rot⟩ := rfl
      rw [hred]
      cases hc : colorEq (colors.getD 0 "") (colors.getD 1 "") with
      | true =>
          rw [if_pos rfl]
          rfl
      | false =>
          rw [if_neg (by simp)]
          rw [hred, hc]
          rw [if_neg (by simp)]
  | qst => exact qstMerge_fix colors rot

/-- C9: the simplifier is idempotent on grids of well-formed blocks:
`simplifyGrid (simplifyGrid g) = simplifyGrid g` (deep equality is
structural equality in the embedding); equivalently, every block
produced by `simplifyBlock` is a fixed point of `simplifyBlock`
(`simplifyBlock_fix`, which holds even without the well-formedness
hypothesis). -/
theorem c9_simplify_idempotent (g : List (List QuiltBlock))
    (h : ∀ row ∈ g, ∀ b ∈ row, b.colors.length = slotCount b.shape) :
    simplifyGrid (simplifyGrid g) = simplifyGrid g := by
  unfold simplifyGrid
  rw [List.map_map]
  apply List.map_congr_left
  intro row _
  show (row.map simplifyBlock).map simplifyBlock = row.map simplifyBlock
  rw [List.map_map]
  apply List.map_congr_left
  intro b _
  exact simplifyBlock_fix b

/-- Witness for C9 on a concrete well-formed grid. -/
theorem c9_simplify_idempotent_witness :
    simplifyGrid (simplifyGrid
        [[⟨ShapeType.hst, ["#FF0000", "#ff0000"], 90⟩],
         [⟨ShapeType.qst, ["#1", "#2", "#2", "#3"], 0⟩]]) =
      simplifyGrid
        [[⟨ShapeType.hst, ["#FF0000", "#ff0000"], 90⟩],
         [⟨ShapeType.qst, ["#1", "#2", "#2", "#3"], 0⟩]] :=
  c9_simplify_idempotent _ (by decide)

/-! ## Exact color coverage (C3) -/

/-- Whether a palette color occurs (case-insensitively) among the color
slots of any block of a grid. -/
def colorUsedInGrid (g : List (List QuiltBlock)) (c : String) : Bool :=
  g.any fun row => row.any fun b => b.colors.any fun x => upperColor x == upperColor c

/-- A failing configuration for the exact-color-coverage guarantee:
a 3-by-1 grid of Squares over a 3-color custom palette, seed 1,
color-count policy `exact`, symmetry mode None. The random fill is
`[#00BB00, #AA0000, #00BB00]`; the only unused color, `#0000CC`, is then
written by `ensureAllColorsUsed` over the single slot holding `#AA0000`,
so `#AA0000` disappears from the output. -/
def c3FailState : AppState :=
  { gridWidth := 3, gridHeight := 1, seed := 1, symmetry := 0,
    symmetryMode := .none,
    enabledShapes := fun sh => decide (sh = .square),
    shapeRatios := fun sh => if sh = .square then 1 else 0,
    paletteIndex := 12,
    customPalettes := [⟨"Trio", ["#AA0000", "#00BB00", "#0000CC"]⟩],
    paletteColorCount := 3, colorCountMode := "exact",
    repeatWidth := 0, repeatHeight := 0 }

/-- C3 is violated by the code: under color-count policy `exact` and
symmetry mode None, the active palette color `#AA0000` of `c3FailState`
does not appear anywhere in the generated grid — `ensureAllColorsUsed`
overwrote its only occurrence with the unused color it was inserting. -/
theorem c3_exact_coverage_fails :
    c3FailState.colorCountMode = "exact" ∧
    c3FailState.symmetryMode = SymmetryMode.none ∧
    "#AA0000" ∈ activePaletteColors c3FailState ∧
    colorUsedInGrid (generateGrid c3FailState) "#AA0000" = false :=
  ⟨rfl, rfl, by decide, by decide⟩
